import Mathlib

/-!
# Verification of the s2cache identifier-resolution and cache-consistency engine

A shallow embedding of the core of the `s2cache` Python package
(`s2cache/semantic_scholar.py`, `s2cache/models.py`, `s2cache/util.py`,
`s2cache/jsonl_backend.py`) together with proofs and refutations of the
testable properties stated in the specification.

Modelling conventions:
* Python `dict`s become association lists with first-match lookup and
  overwrite-in-place insertion (`dlookup` / `dinsert`), which reproduces
  Python's key semantics; iteration order is the list order, as in Python.
* Python `int` is `Int` (arbitrary precision, like Python).
* Python `None` becomes `Option.none`; Python truthiness of a string is
  `≠ ""`, of a list is non-emptiness, of an `Option Int` is
  `isSome ∧ value ≠ 0`.
* A raised Python exception is an explicit `PyExn` value in an `Except`.
* At runtime the `citingPaper` / `citedPaper` payload of an edge entry can be
  the `None` error sentinel (the code guards every access with
  `if x.citingPaper`), so it is modelled as `Option PaperDetails`.
-/

/-- Python exceptions that the modelled code can raise. -/
inductive PyExn where
  | valueError
  | typeError
  | keyError
  | attributeError
  | indexError
deriving DecidableEq, Repr

/-- `models.Error`: the explicit error value returned to callers
(`message` plus an `error` payload defaulting to `"error"`). -/
structure SError where
  message : String
  error : String := "error"
deriving DecidableEq, Repr

/-- `models.PaperDetails`, restricted to the fields the verified properties
touch (identifier fields, counts, external ids, the nested citation and
reference lists, and the caller-transparency field `duplicateId`).  The
remaining fields of the Python dataclass (title, authors, venue, ... ) are
inert JSON payload carried through unchanged by every modelled operation and
are elided.  The Python class is recursive: `citations`/`references` are
lists of papers; at runtime a list slot can hold the `None` error sentinel,
hence `Option`. -/
inductive PaperDetails where
  | mk (paperId : String)
       (corpusId : Int)
       (referenceCount : Option Int)
       (citationCount : Option Int)
       (externalIds : List (String × String))
       (citations : List (Option PaperDetails))
       (references : List (Option PaperDetails))
       (duplicateId : Option String)

namespace PaperDetails

def paperId : PaperDetails → String
  | .mk p _ _ _ _ _ _ _ => p

def corpusId : PaperDetails → Int
  | .mk _ c _ _ _ _ _ _ => c

def referenceCount : PaperDetails → Option Int
  | .mk _ _ r _ _ _ _ _ => r

def citationCount : PaperDetails → Option Int
  | .mk _ _ _ c _ _ _ _ => c

def externalIds : PaperDetails → List (String × String)
  | .mk _ _ _ _ e _ _ _ => e

def citations : PaperDetails → List (Option PaperDetails)
  | .mk _ _ _ _ _ c _ _ => c

def references : PaperDetails → List (Option PaperDetails)
  | .mk _ _ _ _ _ _ r _ => r

def duplicateId : PaperDetails → Option String
  | .mk _ _ _ _ _ _ _ d => d

def setCitationCount : PaperDetails → Option Int → PaperDetails
  | .mk p co r _ e c rf d, cc => .mk p co r cc e c rf d

def setCitations : PaperDetails → List (Option PaperDetails) → PaperDetails
  | .mk p co r cc e _ rf d, c => .mk p co r cc e c rf d

def setReferences : PaperDetails → List (Option PaperDetails) → PaperDetails
  | .mk p co r cc e c _ d, rf => .mk p co r cc e c rf d

def setDuplicateId : PaperDetails → Option String → PaperDetails
  | .mk p co r cc e c rf _, d => .mk p co r cc e c rf d

end PaperDetails

/-- `models.Citation`: `{citingPaper, contexts, intents}`. -/
structure Citation where
  citingPaper : Option PaperDetails
  contexts : List String := []
  intents : List String := []

/-- `models.Reference`: `{citedPaper, contexts, intents}`. -/
structure Reference where
  citedPaper : Option PaperDetails
  contexts : List String := []
  intents : List String := []

/-- `models.Citations`: one edge-list page `{offset, data, next}`. -/
structure Citations where
  offset : Int
  data : List Citation
  next : Option Int := none

/-- `models.References`: one edge-list page `{offset, data, next}`. -/
structure References where
  offset : Int
  data : List Reference
  next : Option Int := none

/-- `models.PaperData`: the full per-paper record unit. -/
structure PaperData where
  details : PaperDetails
  citations : Citations
  references : References

/-- Python truthiness of an `Option Int` (`None` and `0` are falsy). -/
def intTruthy : Option Int → Bool
  | none => false
  | some n => n ≠ 0

/-- `util._maybe_fix_citation_data` on an already-typed citation list: the
dict-reparsing branch (`isinstance(citation_data.data[0], dict)`) belongs to
the JSON ingestion path and is identity on typed data; the final
`filter(lambda x: getattr(x, key), ...)` drops entries whose counterpart
payload is the `None` error sentinel. -/
def maybe_fix_citation_data (l : List Citation) : List Citation :=
  l.filter (fun x => x.citingPaper.isSome)

/-- `util._maybe_fix_citation_data` for reference entries (`key = "citedPaper"`). -/
def maybe_fix_reference_data (l : List Reference) : List Reference :=
  l.filter (fun x => x.citedPaper.isSome)

/-- The set of counterpart ids built by the merge:
`{x.citingPaper.paperId for x in new_citation_data.data if x.citingPaper}`. -/
def citation_data_ids (l : List Citation) : List String :=
  l.filterMap (fun x => x.citingPaper.map (·.paperId))

/-- Counterpart ids of reference entries. -/
def reference_data_ids (l : List Reference) : List String :=
  l.filterMap (fun x => x.citedPaper.map (·.paperId))

/-- One iteration of the append loop in
`SemanticScholar._update_citations_from_existing_to_new`:
```
if x.citingPaper and x.citingPaper.paperId and x.citingPaper.paperId not in new_data_ids:
    new_citation_data.data.append(x)
    if new_citation_data.next:
        new_citation_data.next += 1
```
The `if new_citation_data.next` test is Python truthiness, so a cursor equal
to `0` is never incremented. -/
def citation_merge_step (ids : List String) (acc : Citations) (x : Citation) : Citations :=
  match x.citingPaper with
  | none => acc
  | some p =>
    if p.paperId ≠ "" ∧ p.paperId ∉ ids then
      { acc with data := acc.data ++ [x],
                 next := match acc.next with
                         | none => none
                         | some n => if n ≠ 0 then some (n + 1) else some n }
    else acc

/-- One iteration of the append loop in
`SemanticScholar._update_references_from_existing_to_new`. -/
def reference_merge_step (ids : List String) (acc : References) (x : Reference) : References :=
  match x.citedPaper with
  | none => acc
  | some p =>
    if p.paperId ≠ "" ∧ p.paperId ∉ ids then
      { acc with data := acc.data ++ [x],
                 next := match acc.next with
                         | none => none
                         | some n => if n ≠ 0 then some (n + 1) else some n }
    else acc

/-- `SemanticScholar._update_citations_from_existing_to_new`: merge an
existing (possibly partial) citation edge-list into a newly fetched one.  The
Python function mutates and returns `new_citation_data`; the model returns the
final value. -/
def update_citations_from_existing_to_new (existing new_ : Citations) : Citations :=
  if existing.data.isEmpty ∧ new_.data.isEmpty then new_
  else
    let existing := if existing.data.isEmpty then existing
                    else { existing with data := maybe_fix_citation_data existing.data }
    let new_ := if new_.data.isEmpty then new_
                else { new_ with data := maybe_fix_citation_data new_.data }
    let ids := citation_data_ids new_.data
    existing.data.foldl (citation_merge_step ids) new_

/-- `SemanticScholar._update_references_from_existing_to_new`. -/
def update_references_from_existing_to_new (existing new_ : References) : References :=
  if existing.data.isEmpty ∧ new_.data.isEmpty then new_
  else
    let existing := if existing.data.isEmpty then existing
                    else { existing with data := maybe_fix_reference_data existing.data }
    let new_ := if new_.data.isEmpty then new_
                else { new_ with data := maybe_fix_reference_data new_.data }
    let ids := reference_data_ids new_.data
    existing.data.foldl (reference_merge_step ids) new_

/-- The empty incoming edge-list used by the idempotence property. -/
def emptyCitations : Citations := { offset := 0, data := [], next := none }

/-- The empty incoming reference edge-list. -/
def emptyReferences : References := { offset := 0, data := [], next := none }

/-! ## Python dicts as association lists -/

/-- Python `d.get(k)` / `d[k]` presence: first binding of `k`. -/
def dlookup {β : Type} (l : List (String × β)) (k : String) : Option β :=
  match l with
  | [] => none
  | (k', v) :: rest => if k' = k then some v else dlookup rest k

/-- `k in d`. -/
def dcontains {β : Type} (l : List (String × β)) (k : String) : Bool :=
  (dlookup l k).isSome

/-- Python `d[k] = v`: overwrite in place if present, else append
(dict insertion order). -/
def dinsert {β : Type} (l : List (String × β)) (k : String) (v : β) :
    List (String × β) :=
  match l with
  | [] => [(k, v)]
  | (k', v') :: rest =>
    if k' = k then (k, v) :: rest else (k', v') :: dinsert rest k v

/-- Integer-keyed dict lookup (for `metadata` / `rev_corpus_map` /
`inferred_duplicates`, keyed by `corpusId`). -/
def zlookup {β : Type} (l : List (Int × β)) (k : Int) : Option β :=
  match l with
  | [] => none
  | (k', v) :: rest => if k' = k then some v else zlookup rest k

/-- Integer-keyed dict insertion. -/
def zinsert {β : Type} (l : List (Int × β)) (k : Int) (v : β) :
    List (Int × β) :=
  match l with
  | [] => [(k, v)]
  | (k', v') :: rest =>
    if k' = k then (k, v) :: rest else (k', v') :: zinsert rest k v

/-! ## Identifier registry (`models.IdTypes`, `NameToIds`, `IdPrefixes`,
`util.id_to_name`) -/

/-- `models.IdTypes`. -/
inductive IdTypes where
  | doi | mag | arxiv | acl | pubmed | pubmedcentral | url | corpus | ss | dblp
deriving DecidableEq, Repr

/-- `models.NameToIds`. -/
def NameToIds : List (String × IdTypes) :=
  [("DOI", .doi), ("MAG", .mag), ("ARXIV", .arxiv), ("ACL", .acl),
   ("PUBMED", .pubmed), ("PUBMEDCENTRAL", .pubmedcentral), ("URL", .url),
   ("corpusId", .corpus), ("SS", .ss), ("DBLP", .dblp)]

/-- `models.IdPrefixes` — note: it has no entry for `IdTypes.ss` and, crucially,
none for `IdTypes.dblp`. -/
def IdPrefixes (t : IdTypes) : Option String :=
  match t with
  | .doi => some "DOI"
  | .mag => some "MAG"
  | .arxiv => some "ARXIV"
  | .acl => some "ACL"
  | .pubmed => some "PMID"
  | .pubmedcentral => some "PMCID"
  | .url => some "URL"
  | .corpus => some "CorpusId"
  | .ss => none
  | .dblp => none

/-- Python `str.upper` (`String.toUpper` is opaque to kernel reduction, so
the model maps `Char.toUpper` over the character list, which is the same
function on these ASCII kind strings). -/
def strUpper (s : String) : String := ⟨s.data.map Char.toUpper⟩

/-- Python `str.lower`. -/
def strLower (s : String) : String := ⟨s.data.map Char.toLower⟩

/-- `util.id_to_name`: `"corpusId" if ID.lower() == "corpusid" else ID.upper()`. -/
def id_to_name (ID : String) : String :=
  if strLower ID = "corpusid" then "corpusId" else strUpper ID

/-! ## Orchestrator state

The process-wide mutable state of one `SemanticScholar` instance plus the
record store it owns.  The JSONL backend (the default, `config.cache_backend
= "jsonl"`) keeps one JSON file per canonical key; its contents are modelled
as the stored `PaperData` value (the `json.dumps`/`json.loads` text layer is
a faithful bijection on these JSON-representable records).  Disk-only
append logs (`metadata.jsonl`, `duplicates.csv`) that the in-process maps
mirror are not duplicated in the state. -/
structure S2State where
  /-- `self._metadata : dict[int, dict[str, str]]` — corpusId → external ids. -/
  metadata : List (Int × List (String × String)) := []
  /-- `self._extid_metadata : dict[str, dict[str, int]]` — id kind → (value → corpusId). -/
  extidMetadata : List (String × List (String × Int)) := []
  /-- `self._known_duplicates : dict[str, str]` — duplicate paperId → canonical paperId. -/
  knownDuplicates : List (String × String) := []
  /-- `self._inferred_duplicates : dict[int, list[str]]` — corpusId → paperIds sharing it. -/
  inferredDuplicates : List (Int × List String) := []
  /-- `self._inferred_duplicates_map : dict[str, int]` — paperId → its inferred group. -/
  inferredDuplicatesMap : List (String × Int) := []
  /-- `self._corpus_map : dict[str, int]` — paperId → corpusId. -/
  corpusMap : List (String × Int) := []
  /-- `self._rev_corpus_map : dict[int, str]` — corpusId → paperId. -/
  revCorpusMap : List (Int × String) := []
  /-- `self._in_memory : dict[str, PaperData]`. -/
  inMemory : List (String × PaperData) := []
  /-- The record store owned by the instance (JSONL backend files). -/
  backend : List (String × PaperData) := []

/-- The freshly initialized state (empty caches and tables). -/
def initState : S2State := {}

/-- `SemanticScholar._check_duplicate`: follow exactly one redirect through
`known_duplicates`; returns the (possibly redirected) id and, when a redirect
happened, the originally requested id. -/
def check_duplicate (s : S2State) (ID : String) : String × Option String :=
  match dlookup s.knownDuplicates ID with
  | some target => (target, some ID)
  | none => (ID, none)

/-- Mutation `data.details.duplicateId = duplicate_id` on a `PaperData`. -/
def setDup (data : PaperData) (dup : Option String) : PaperData :=
  { data with details := data.details.setDuplicateId dup }

/-- `SemanticScholar._check_cache`: resolve one duplicate hop, consult
`_in_memory` then the backend, populate `_in_memory` on a backend hit, and
stamp `duplicateId` on the returned (and cached — the Python mutates the
shared object) record.  Backend records are stored well-typed here, so the
`PaperData(**data)` re-parse (whose `TypeError` branch signals stale data)
always succeeds in the model. -/
def check_cache (s : S2State) (ID : String) : S2State × Option PaperData :=
  let (id2, dup) := check_duplicate s ID
  match dlookup s.inMemory id2 with
  | some pd =>
    let pd := setDup pd dup
    ({ s with inMemory := dinsert s.inMemory id2 pd }, some pd)
  | none =>
    match dlookup s.backend id2 with
    | some pd =>
      let pd := setDup pd dup
      ({ s with inMemory := dinsert s.inMemory id2 pd }, some pd)
    | none => (s, none)

/-- `SemanticScholar.to_details`: deep-copy the record and move the
counterpart papers of the stored edge-lists into `details.citations` /
`details.references` (`[x.citedPaper for x in ...]` keeps `None` sentinels). -/
def to_details (data : PaperData) : PaperDetails :=
  let d := data.details
  let d := d.setReferences (data.references.data.map (·.citedPaper))
  d.setCitations (data.citations.data.map (·.citingPaper))

/-! ## JSONL record store (`jsonl_backend.JSONLBackend`) -/

/-- The count fix-up at the top of `JSONLBackend.dump_paper_data`:
```
if len(data.citations.data) > data.details.citationCount:
    data.details.citationCount = len(data.citations.data)
```
When `citationCount` is `None`, the Python 3 comparison `int > None` raises
`TypeError`. -/
def clamp_citation_count (data : PaperData) : Except PyExn PaperData :=
  match data.details.citationCount with
  | none => .error .typeError
  | some c =>
    if (data.citations.data.length : Int) > c then
      .ok { data with details :=
              data.details.setCitationCount (some (data.citations.data.length : Int)) }
    else .ok data

/-- `JSONLBackend.dump_paper_data` (`put`): apply the count fix-up, then write
the record's JSON to the file named by the canonical key (modelled as the
store binding; `json.dumps` of a well-typed record is faithfully invertible). -/
def dump_paper_data (store : List (String × PaperData)) (ID : String)
    (data : PaperData) : Except PyExn (List (String × PaperData)) :=
  match clamp_citation_count data with
  | .error e => .error e
  | .ok d => .ok (dinsert store ID d)

/-- `JSONLBackend.get_paper_data` (`get`): read and `json.loads` the file for
the key, `None` when absent. -/
def get_paper_data (store : List (String × PaperData)) (ID : String) :
    Option PaperData :=
  dlookup store ID

/-! ## Python slices -/

/-- Clamp one Python slice bound for a list of length `n`:
negative indices count from the end (floored at 0), positive ones are capped
at `n`. -/
def pySliceIndex (n : Nat) (i : Int) : Nat :=
  if i < 0 then ((n : Int) + i).toNat else min i.toNat n

/-- Python `l[start:stop]`. -/
def pySlice {α : Type} (l : List α) (start stop : Int) : List α :=
  let s := pySliceIndex l.length start
  let e := pySliceIndex l.length stop
  (l.drop s).take (e - s)

/-! ## Configuration (`models.DataParams`, `models.DataConfig`) -/

/-- `models.DataParams` (the `fields` selector plays no role here). -/
structure DataParams where
  limit : Int

/-- `models.DataConfig`: per-API-call parameters. -/
structure DataConfig where
  details : DataParams
  references : DataParams
  citations : DataParams
  search : DataParams
  author : DataParams
  author_papers : DataParams

/-- `SemanticScholar.apply_limits`: truncate the (copied — the Python
round-trips through `dataclasses.asdict`, so the caller's record is not
mutated) details' citation and reference lists to the configured limits.
`if data.citations:` is list truthiness, so empty lists are left alone. -/
def apply_limits (cfg : DataConfig) (data : PaperDetails) : PaperDetails :=
  let data := if ¬ data.citations.isEmpty then
                data.setCitations (pySlice data.citations 0 cfg.citations.limit)
              else data
  if ¬ data.references.isEmpty then
    data.setReferences (pySlice data.references 0 cfg.references.limit)
  else data

/-! ## Metadata and duplicate bookkeeping
(`SemanticScholar._update_paper_details_in_backend` and its inner helpers) -/

/-- Inner `update_paper_metadata` of `_update_paper_details_in_backend`:
refresh `_extid_metadata`, `metadata`, `corpus_map` and `rev_corpus_map` from
the fetched details.  (`self.update_paper_metadata(paper_id)` additionally
appends the same entry to the on-disk metadata log, which the in-process maps
mirror.) -/
def update_paper_metadata (s : S2State) (details : PaperDetails) : S2State :=
  let paper_id := details.paperId
  let corpus_id := details.corpusId
  let extid := details.externalIds.foldl
    (fun m kv =>
      if dcontains m (id_to_name kv.1) ∧ kv.2 ≠ "" then
        dinsert m (id_to_name kv.1)
          (dinsert ((dlookup m (id_to_name kv.1)).getD []) kv.2 corpus_id)
      else m)
    s.extidMetadata
  let md := details.externalIds.foldl
    (fun m kv => dinsert m (id_to_name kv.1) kv.2) []
  { s with extidMetadata := extid,
           metadata := zinsert s.metadata corpus_id md,
           corpusMap := dinsert s.corpusMap paper_id corpus_id,
           revCorpusMap := zinsert s.revCorpusMap corpus_id paper_id }

/-- Inner `maybe_add_inferred_duplicate_to_known_duplicates`: when the id
belongs to an inferred-duplicate group and is not already a canonical target,
promote it — every other member of its group is pointed directly at it in
`known_duplicates` (the group list, a shared mutable Python list, loses the
promoted member).  `duplicates.remove(ID)` can only raise for states not
produced by `load_metadata`, where the map is derived from the groups; the
model uses first-occurrence erasure. -/
def maybe_add_inferred_duplicate_to_known_duplicates (s : S2State) (ID : String) :
    S2State :=
  match dlookup s.inferredDuplicatesMap ID with
  | none => s
  | some gid =>
    if ¬ s.knownDuplicates.any (fun kv => kv.2 = ID) then
      let duplicates := ((zlookup s.inferredDuplicates gid).getD []).erase ID
      let s := { s with inferredDuplicates := zinsert s.inferredDuplicates gid duplicates }
      duplicates.foldl
        (fun st dup => { st with knownDuplicates := dinsert st.knownDuplicates dup ID })
        s
    else s

/-- `SemanticScholar._update_paper_details_in_backend` (the `record()`
operation): merge any existing cached edge-lists into the fetched record
(unless `discard_existing`), persist it under the fetched canonical key,
refresh the metadata index, lazily promote inferred duplicates, and register
a known-duplicate edge `requested ID → fetched paperId` when they differ.
The in-place sentinel filtering that the merge applies to the previously
cached object is not tracked (it never touches the duplicate tables or the
stored record, which this model's claims concern). -/
def update_paper_details_in_backend (s : S2State) (ID : String) (data : PaperData)
    (discard_existing : Bool) : Except PyExn S2State :=
  let paper_id := data.details.paperId
  -- update_existing_data
  let (s, data) :=
    if ¬ discard_existing then
      match check_cache s paper_id with
      | (s1, some existing) =>
        (s1, { data with
                 citations := update_citations_from_existing_to_new
                                existing.citations data.citations,
                 references := update_references_from_existing_to_new
                                 existing.references data.references })
      | (s1, none) => (s1, data)
    else (s, data)
  -- store_paper_data → JSONLBackend.dump_paper_data; the count fix-up
  -- mutates the shared record, so later steps and `_in_memory` see it
  match clamp_citation_count data with
  | .error e => .error e
  | .ok data =>
    let s := { s with backend := dinsert s.backend paper_id data }
    let s := update_paper_metadata s data.details
    let s := maybe_add_inferred_duplicate_to_known_duplicates s ID
    -- update_duplicates
    let s := if ID ≠ paper_id then
               { s with knownDuplicates := dinsert s.knownDuplicates ID paper_id }
             else s
    .ok { s with inMemory := dinsert s.inMemory paper_id data }

/-! ## Identifier resolution and the lookup pipeline -/

/-- Python truthiness of an `Option String` (`None` and `""` are falsy). -/
def strOptTruthy : Option String → Bool
  | none => false
  | some s => s ≠ ""

/-- Python `c in s` on one character (Lean's `String.contains` is opaque to
kernel reduction; this char-list version is the same function). -/
def pyContainsChar (s : String) (c : Char) : Bool := s.data.any (fun x => x = c)

/-- Result of `SemanticScholar.id_to_prefix_and_id`: an explicit `Error`
value, a raised exception, or the `(prefix, ssid, have_metadata)` triple. -/
inductive PrefixIdOutcome where
  | err (e : SError)
  | raised (e : PyExn)
  | ok (pfxName : String) (ssid : String) (haveMetadata : Bool)
deriving DecidableEq, Repr

/-- `SemanticScholar.id_to_prefix_and_id`: classify the id kind through
`NameToIds[id_to_name(id_type)]`, resolve the id against the metadata index,
follow known/inferred duplicate redirects, and return
`(IdPrefixes.get(id_, ""), ssid, have_metadata)`.
`ssid in self.metadata` tests a string against the int-keyed `_metadata`
dict and is therefore always `False` at runtime; missing-key accesses raise
`KeyError` exactly where the Python would. -/
def id_to_prefix_and_id (s : S2State) (id_type ID : String) : PrefixIdOutcome :=
  match dlookup NameToIds (id_to_name id_type) with
  | none => .err { message := "Invalid ID type " ++ id_to_name id_type }
  | some id_ =>
    let resolved : Except PyExn (String × String × Bool) :=
      if id_ = IdTypes.ss then
        -- have_metadata = (ssid in self._metadata) or (ssid in self.corpus_map)
        .ok ("", ID, dcontains s.corpusMap ID)
      else
        let id_name := id_to_name id_type
        match dlookup s.extidMetadata id_name with
        | none => .error .keyError
        | some m =>
          let corpus_id := dlookup m ID
          let have_metadata := intTruthy corpus_id
          match corpus_id with
          | some cid =>
            if cid ≠ 0 then
              match zlookup s.revCorpusMap cid with
              | none => .error .keyError
              | some pid => .ok (id_name, pid, have_metadata)
            else .ok (id_name, "", have_metadata)
          | none => .ok (id_name, "", have_metadata)
    match resolved with
    | .error e => .raised e
    | .ok (_, ssid, have_metadata) =>
      match dlookup s.knownDuplicates ssid with
      | some target => .ok ((IdPrefixes id_).getD "") target have_metadata
      | none =>
        match dlookup s.inferredDuplicatesMap ssid with
        | some gid =>
          match zlookup s.inferredDuplicates gid with
          | none => .raised .keyError
          | some [] => .raised .indexError
          | some (h :: _) => .ok ((IdPrefixes id_).getD "") h have_metadata
        | none => .ok ((IdPrefixes id_).getD "") ssid have_metadata

/-- `SemanticScholar.check_for_dblp`: `NameToIds[id_to_name(id_name)] ==
IdTypes.dblp`.  A `KeyError` escapes when `id_to_name(id_name)` is not a key
of `NameToIds` — which is what actually happens at every call site for DBLP
ids, because the callers pass the `IdPrefixes` prefix and `IdPrefixes` has no
`dblp` entry, so `id_name` is `""`. -/
def check_for_dblp (id_name : String) : Except PyExn (Option SError) :=
  match dlookup NameToIds (id_to_name id_name) with
  | none => .error .keyError
  | some t =>
    if t = IdTypes.dblp then
      .ok (some { message :=
        "Details for DBLP IDs cannot be fetched directly from SemanticScholar" })
    else .ok none

/-- `SemanticScholar.fetch_from_cache_or_api`, restricted to the control
paths that stay inside the process: every branch that would issue a network
request (`fetch_store_and_return_details`) returns `none`.  On a cache hit it
returns the updated state and either the raw `PaperData` (`no_transform`) or
the `to_details` view. -/
def fetch_from_cache_or_api_cached (s : S2State) (have_metadata : Bool)
    (ID : String) (force : Bool) (no_transform : Bool) :
    Option (S2State × (PaperData ⊕ PaperDetails)) :=
  let (id2, duplicate_id) :=
    if ¬ (pyContainsChar ID ':') then check_duplicate s ID else (ID, none)
  if have_metadata ∨ strOptTruthy duplicate_id then
    let (s1, data?) := check_cache s id2
    if ¬ force then
      match data? with
      | none => none  -- stale or absent: fetch_store_and_return_details (network)
      | some data =>
        -- `if duplicate_id and isinstance(data, PaperData): ...` mutates the
        -- shared object that `_check_cache` holds in `_in_memory` under its
        -- one-hop-resolved key
        let data := if strOptTruthy duplicate_id then setDup data duplicate_id else data
        let s2 := if strOptTruthy duplicate_id then
                    { s1 with inMemory :=
                        dinsert s1.inMemory (check_duplicate s id2).1 data }
                  else s1
        if no_transform then some (s2, .inl data)
        else some (s2, .inr (to_details data))
    else none  -- force: fetch_store_and_return_details (network)
  else none    -- no metadata and no duplicate: fetch (network)

/-- Result of `SemanticScholar.get_details_for_id`: an `Error` value, a
raised exception, a live network fetch (outside this model), or the details
returned from cache. -/
inductive GetDetailsOutcome where
  | err (e : SError)
  | raised (e : PyExn)
  | network
  | ok (s : S2State) (det : PaperDetails)

/-- `SemanticScholar.get_details_for_id`: resolve the id, run the
(mis-directed) DBLP guard `not ssid and self.check_for_dblp(id_prefix)`,
fetch from cache (network paths are `.network`), and `apply_limits` to the
result. -/
def get_details_for_id (s : S2State) (cfg : DataConfig) (id_type ID : String)
    (force : Bool) : GetDetailsOutcome :=
  match id_to_prefix_and_id s id_type ID with
  | .raised e => .raised e
  | .err e => .err e
  | .ok pfxName ssid have_metadata =>
    let cont : GetDetailsOutcome :=
      match fetch_from_cache_or_api_cached s have_metadata
              (if ssid = "" then pfxName ++ ":" ++ ID else ssid) force false with
      | none => .network
      | some (s', .inr det) => .ok s' (apply_limits cfg det)
      | some (_, .inl _) => .raised .typeError  -- unreachable: no_transform is False
    if ssid = "" then
      match check_for_dblp pfxName with
      | .error e => .raised e
      | .ok (some er) => .err er
      | .ok none => cont
    else cont

/-- `SemanticScholar.citations` after its opening
`fetch_from_cache_or_api(True, ID, False, True)` call: `data` is the cached
record that call returned and `refilled` is what `self._check_cache(ID)`
yields after the `next_citations` network refill (the refill itself is
outside the model; when the refill branch is not taken `refilled` is unused).
Raises `ValueError` when the reported `citationCount` is falsy (`None` or
`0`), and an `AttributeError` when the post-refill cache read returns `None`
(`data.citations` on `None`). -/
def citations_method (data : PaperData) (offset : Int) (limit : Option Int)
    (refilled : Option PaperData) : Except PyExn (List (Option PaperDetails)) :=
  let existing_citations := data.citations.data
  let citation_count := data.details.citationCount
  if ¬ intTruthy citation_count then .error .valueError
  else
    let cc := citation_count.getD 0
    let lim := match limit with
               | none => cc - offset
               | some l => if l ≠ 0 then l else cc - offset
    let lim := if offset + lim > cc then cc - offset else lim
    if offset + lim > (existing_citations.length : Int) then
      match refilled with
      | none => .error .attributeError
      | some d2 =>
        .ok ((pySlice d2.citations.data offset (offset + lim)).map (·.citingPaper))
    else
      .ok ((pySlice existing_citations offset (offset + lim)).map (·.citingPaper))

/-! ## Lemmas about the merge fold -/

/-- The append-loop guard as a Boolean predicate on one existing entry:
counterpart present, counterpart id non-empty, and id not among the incoming
page's counterpart ids. -/
def citation_appended (ids : List String) (x : Citation) : Bool :=
  match x.citingPaper with
  | none => false
  | some p => decide (p.paperId ≠ "" ∧ p.paperId ∉ ids)

/-- Reference analogue of `citation_appended`. -/
def reference_appended (ids : List String) (x : Reference) : Bool :=
  match x.citedPaper with
  | none => false
  | some p => decide (p.paperId ≠ "" ∧ p.paperId ∉ ids)

theorem foldl_fixed {α β : Type} (f : β → α → β) (l : List α) (acc : β)
    (h : ∀ acc' x, x ∈ l → f acc' x = acc') : l.foldl f acc = acc := by
  induction l generalizing acc with
  | nil => rfl
  | cons x xs ih =>
    rw [List.foldl_cons, h acc x (by simp)]
    exact ih acc (fun a y hy => h a y (by simp [hy]))

theorem citation_fold_data (ids : List String) (l : List Citation) (acc : Citations) :
    (l.foldl (citation_merge_step ids) acc).data
      = acc.data ++ l.filter (citation_appended ids) := by
  induction l generalizing acc with
  | nil => simp
  | cons x xs ih =>
    rw [List.foldl_cons, ih]
    cases hx : x.citingPaper with
    | none => simp [citation_merge_step, hx, List.filter_cons, citation_appended]
    | some p =>
      by_cases hp : p.paperId ≠ "" ∧ p.paperId ∉ ids
      · simp [citation_merge_step, hx, List.filter_cons, citation_appended, hp]
      · simp [citation_merge_step, hx, List.filter_cons, citation_appended, hp]

theorem reference_fold_data (ids : List String) (l : List Reference) (acc : References) :
    (l.foldl (reference_merge_step ids) acc).data
      = acc.data ++ l.filter (reference_appended ids) := by
  induction l generalizing acc with
  | nil => simp
  | cons x xs ih =>
    rw [List.foldl_cons, ih]
    cases hx : x.citedPaper with
    | none => simp [reference_merge_step, hx, List.filter_cons, reference_appended]
    | some p =>
      by_cases hp : p.paperId ≠ "" ∧ p.paperId ∉ ids
      · simp [reference_merge_step, hx, List.filter_cons, reference_appended, hp]
      · simp [reference_merge_step, hx, List.filter_cons, reference_appended, hp]

theorem citation_fold_offset (ids : List String) (l : List Citation) (acc : Citations) :
    (l.foldl (citation_merge_step ids) acc).offset = acc.offset := by
  induction l generalizing acc with
  | nil => rfl
  | cons x xs ih =>
    rw [List.foldl_cons, ih]
    cases hx : x.citingPaper with
    | none => simp [citation_merge_step, hx]
    | some p =>
      by_cases hp : p.paperId ≠ "" ∧ p.paperId ∉ ids
      · simp [citation_merge_step, hx, hp]
      · simp [citation_merge_step, hx, hp]

theorem citation_fold_next_pos (ids : List String) (l : List Citation)
    (acc : Citations) (n : Int) (hacc : acc.next = some n) (hn : 0 < n) :
    (l.foldl (citation_merge_step ids) acc).next
      = some (n + ((l.filter (citation_appended ids)).length : Int)) := by
  induction l generalizing acc n with
  | nil => simpa using hacc
  | cons x xs ih =>
    rw [List.foldl_cons]
    cases hx : x.citingPaper with
    | none =>
      rw [List.filter_cons]
      have hap : citation_appended ids x = false := by
        simp [citation_appended, hx]
      rw [hap]
      simpa [citation_merge_step, hx] using ih acc n hacc hn
    | some p =>
      by_cases hp : p.paperId ≠ "" ∧ p.paperId ∉ ids
      · have hap : citation_appended ids x = true := by
          simp [citation_appended, hx, hp]
        have hstep : (citation_merge_step ids acc x).next = some (n + 1) := by
          simp [citation_merge_step, hx, hp, hacc, hn.ne']
        have hlen : (List.filter (citation_appended ids) (x :: xs)).length
            = (List.filter (citation_appended ids) xs).length + 1 := by
          simp [List.filter_cons, hap]
        rw [hlen, ih (citation_merge_step ids acc x) (n + 1) hstep (by omega)]
        congr 1
        push_cast
        ring
      · have hap : citation_appended ids x = false := by
          simp only [citation_appended, hx]
          simpa using hp
        rw [List.filter_cons, hap]
        have hstep : citation_merge_step ids acc x = acc := by
          simp [citation_merge_step, hx, hp]
        rw [hstep]
        exact ih acc n hacc hn

theorem reference_fold_next_pos (ids : List String) (l : List Reference)
    (acc : References) (n : Int) (hacc : acc.next = some n) (hn : 0 < n) :
    (l.foldl (reference_merge_step ids) acc).next
      = some (n + ((l.filter (reference_appended ids)).length : Int)) := by
  induction l generalizing acc n with
  | nil => simpa using hacc
  | cons x xs ih =>
    rw [List.foldl_cons]
    cases hx : x.citedPaper with
    | none =>
      rw [List.filter_cons]
      have hap : reference_appended ids x = false := by
        simp [reference_appended, hx]
      rw [hap]
      simpa [reference_merge_step, hx] using ih acc n hacc hn
    | some p =>
      by_cases hp : p.paperId ≠ "" ∧ p.paperId ∉ ids
      · have hap : reference_appended ids x = true := by
          simp [reference_appended, hx, hp]
        have hstep : (reference_merge_step ids acc x).next = some (n + 1) := by
          simp [reference_merge_step, hx, hp, hacc, hn.ne']
        have hlen : (List.filter (reference_appended ids) (x :: xs)).length
            = (List.filter (reference_appended ids) xs).length + 1 := by
          simp [List.filter_cons, hap]
        rw [hlen, ih (reference_merge_step ids acc x) (n + 1) hstep (by omega)]
        congr 1
        push_cast
        ring
      · have hap : reference_appended ids x = false := by
          simp only [reference_appended, hx]
          simpa using hp
        rw [List.filter_cons, hap]
        have hstep : reference_merge_step ids acc x = acc := by
          simp [reference_merge_step, hx, hp]
        rw [hstep]
        exact ih acc n hacc hn

/-! ## Merge idempotence (claim C1) -/

theorem merge_citations_self (X : Citations)
    (hX : ∀ x ∈ X.data, ∃ p, x.citingPaper = some p ∧ p.paperId ≠ "") :
    update_citations_from_existing_to_new X X = X := by
  obtain ⟨off, dat, nxt⟩ := X
  by_cases hE : dat.isEmpty
  · simp [update_citations_from_existing_to_new, hE]
  · have hfix : maybe_fix_citation_data dat = dat := by
      apply List.filter_eq_self.mpr
      intro x hx
      obtain ⟨p, hp, _⟩ := hX x hx
      simp [hp]
    simp only [update_citations_from_existing_to_new, hE, Bool.false_eq_true,
      and_self, if_false, hfix]
    apply foldl_fixed
    intro acc x hx
    obtain ⟨p, hp, hne⟩ := hX x hx
    have hmem : p.paperId ∈ citation_data_ids dat := by
      simp only [citation_data_ids, List.mem_filterMap]
      exact ⟨x, hx, by simp [hp]⟩
    simp [citation_merge_step, hp, hmem]

theorem merge_citations_empty_incoming (X : Citations)
    (hX : ∀ x ∈ X.data, ∃ p, x.citingPaper = some p ∧ p.paperId ≠ "") :
    (update_citations_from_existing_to_new X emptyCitations).data = X.data := by
  obtain ⟨off, dat, nxt⟩ := X
  by_cases hE : dat.isEmpty
  · have h0 : dat = [] := by simpa using hE
    subst h0
    rfl
  · have hfix : maybe_fix_citation_data dat = dat := by
      apply List.filter_eq_self.mpr
      intro x hx
      obtain ⟨p, hp, _⟩ := hX x hx
      simp [hp]
    simp only [update_citations_from_existing_to_new, emptyCitations, hE,
      Bool.false_eq_true, false_and, and_false, if_false, List.isEmpty_nil,
      if_true, hfix]
    rw [citation_fold_data]
    simp only [List.nil_append]
    apply List.filter_eq_self.mpr
    intro x hx
    obtain ⟨p, hp, hne⟩ := hX x hx
    simp [citation_appended, hp, hne, citation_data_ids]

theorem merge_references_self (Y : References)
    (hY : ∀ y ∈ Y.data, ∃ p, y.citedPaper = some p ∧ p.paperId ≠ "") :
    update_references_from_existing_to_new Y Y = Y := by
  obtain ⟨off, dat, nxt⟩ := Y
  by_cases hE : dat.isEmpty
  · simp [update_references_from_existing_to_new, hE]
  · have hfix : maybe_fix_reference_data dat = dat := by
      apply List.filter_eq_self.mpr
      intro y hy
      obtain ⟨p, hp, _⟩ := hY y hy
      simp [hp]
    simp only [update_references_from_existing_to_new, hE, Bool.false_eq_true,
      and_self, if_false, hfix]
    apply foldl_fixed
    intro acc y hy
    obtain ⟨p, hp, hne⟩ := hY y hy
    have hmem : p.paperId ∈ reference_data_ids dat := by
      simp only [reference_data_ids, List.mem_filterMap]
      exact ⟨y, hy, by simp [hp]⟩
    simp [reference_merge_step, hp, hmem]

theorem merge_references_empty_incoming (Y : References)
    (hY : ∀ y ∈ Y.data, ∃ p, y.citedPaper = some p ∧ p.paperId ≠ "") :
    (update_references_from_existing_to_new Y emptyReferences).data = Y.data := by
  obtain ⟨off, dat, nxt⟩ := Y
  by_cases hE : dat.isEmpty
  · have h0 : dat = [] := by simpa using hE
    subst h0
    rfl
  · have hfix : maybe_fix_reference_data dat = dat := by
      apply List.filter_eq_self.mpr
      intro y hy
      obtain ⟨p, hp, _⟩ := hY y hy
      simp [hp]
    simp only [update_references_from_existing_to_new, emptyReferences, hE,
      Bool.false_eq_true, false_and, and_false, if_false, List.isEmpty_nil,
      if_true, hfix]
    rw [reference_fold_data]
    simp only [List.nil_append]
    apply List.filter_eq_self.mpr
    intro y hy
    obtain ⟨p, hp, hne⟩ := hY y hy
    simp [reference_appended, hp, hne, reference_data_ids]

/-- A minimal concrete counterpart paper for concrete test records. -/
def mkPaper (pid : String) (cid : Int) : PaperDetails :=
  .mk pid cid none none [] [] [] none

/-- **C1** (amended).  For every citation edge-list `X` and reference
edge-list `Y` all of whose entries carry a present counterpart paper with a
non-empty `paperId`, `_update_citations_from_existing_to_new` /
`_update_references_from_existing_to_new` applied to `X` (resp. `Y`) as both
arguments return it unchanged, and applied with it as `existing` and an empty
incoming page return exactly its elements in the same order with no entry
duplicated.  As stated over *every* edge-list the claim fails: entries whose
counterpart payload is the error sentinel are silently dropped by the merge
(see the counterexample). -/
theorem claim1_merge_self_and_empty_identity (X : Citations) (Y : References)
    (hX : ∀ x ∈ X.data, ∃ p, x.citingPaper = some p ∧ p.paperId ≠ "")
    (hY : ∀ y ∈ Y.data, ∃ p, y.citedPaper = some p ∧ p.paperId ≠ "") :
    update_citations_from_existing_to_new X X = X ∧
    (update_citations_from_existing_to_new X emptyCitations).data = X.data ∧
    update_references_from_existing_to_new Y Y = Y ∧
    (update_references_from_existing_to_new Y emptyReferences).data = Y.data :=
  ⟨merge_citations_self X hX, merge_citations_empty_incoming X hX,
   merge_references_self Y hY, merge_references_empty_incoming Y hY⟩

/-- A one-entry citation page with a real counterpart. -/
def c1X : Citations :=
  { offset := 0, data := [{ citingPaper := some (mkPaper "w1" 1) }], next := some 5 }

/-- A one-entry reference page with a real counterpart. -/
def c1Y : References :=
  { offset := 0, data := [{ citedPaper := some (mkPaper "w2" 2) }], next := none }

/-- Witness for C1 at a concrete one-entry edge-list. -/
theorem claim1_witness :
    update_citations_from_existing_to_new c1X c1X = c1X ∧
    (update_citations_from_existing_to_new c1X emptyCitations).data = c1X.data ∧
    update_references_from_existing_to_new c1Y c1Y = c1Y ∧
    (update_references_from_existing_to_new c1Y emptyReferences).data = c1Y.data :=
  claim1_merge_self_and_empty_identity c1X c1Y
    (by
      intro x hx
      simp only [c1X, List.mem_singleton] at hx
      subst hx
      exact ⟨mkPaper "w1" 1, rfl, by decide⟩)
    (by
      intro y hy
      simp only [c1Y, List.mem_singleton] at hy
      subst hy
      exact ⟨mkPaper "w2" 2, rfl, by decide⟩)

/-- An edge-list holding one error-sentinel entry (counterpart `None`). -/
def c1badX : Citations := { offset := 0, data := [{ citingPaper := none }], next := none }

/-- **C1** counterexample: merging the sentinel-carrying edge-list with
itself does not return the same elements — the sentinel entry is dropped, so
`merge(X, X) ≠ X` for this `X`, refuting the claim as stated over every
edge-list. -/
theorem claim1_counterexample :
    (update_citations_from_existing_to_new c1badX c1badX).data ≠ c1badX.data := by
  intro h
  have hlen := congrArg List.length h
  revert hlen
  decide

/-! ## Merge normal form (claims C2, C9) -/

/-- The entries of the existing edge-list that the merge loop appends to the
incoming page: counterpart present, id non-empty, id not among the incoming
page's counterpart ids. -/
def appended_citations (e n : Citations) : List Citation :=
  (maybe_fix_citation_data e.data).filter
    (citation_appended (citation_data_ids (maybe_fix_citation_data n.data)))

/-- Reference analogue of `appended_citations`. -/
def appended_references (e n : References) : List Reference :=
  (maybe_fix_reference_data e.data).filter
    (reference_appended (reference_data_ids (maybe_fix_reference_data n.data)))

theorem citation_data_ids_append (a b : List Citation) :
    citation_data_ids (a ++ b) = citation_data_ids a ++ citation_data_ids b := by
  simp [citation_data_ids]

theorem citation_data_ids_fix (l : List Citation) :
    citation_data_ids (maybe_fix_citation_data l) = citation_data_ids l := by
  induction l with
  | nil => rfl
  | cons x xs ih =>
    cases hx : x.citingPaper <;>
      simp [citation_data_ids, maybe_fix_citation_data, List.filter_cons, hx,
        List.filterMap_cons] <;>
      simpa [citation_data_ids, maybe_fix_citation_data] using ih

theorem update_citations_data (e n : Citations) :
    (update_citations_from_existing_to_new e n).data
      = maybe_fix_citation_data n.data ++ appended_citations e n := by
  obtain ⟨oe, de, xe⟩ := e
  obtain ⟨oi, di, xi⟩ := n
  by_cases h : de.isEmpty ∧ di.isEmpty
  · have h1 : de = [] := by simpa using h.1
    have h2 : di = [] := by simpa using h.2
    subst h1; subst h2
    rfl
  · simp only [update_citations_from_existing_to_new, h, if_false]
    by_cases h1 : de.isEmpty
    · have he : de = [] := by simpa using h1
      subst he
      by_cases h2 : di.isEmpty
      · exact absurd ⟨h1, h2⟩ h
      · simp [h1, h2, citation_fold_data, appended_citations, maybe_fix_citation_data]
    · by_cases h2 : di.isEmpty
      · have hi : di = [] := by simpa using h2
        subst hi
        simp [h1, h2, citation_fold_data, appended_citations, maybe_fix_citation_data]
      · simp [h1, h2, citation_fold_data, appended_citations]

theorem update_citations_next_pos (e n : Citations) (k : Int)
    (hk : n.next = some k) (hpos : 0 < k) :
    (update_citations_from_existing_to_new e n).next
      = some (k + ((appended_citations e n).length : Int)) := by
  obtain ⟨oe, de, xe⟩ := e
  obtain ⟨oi, di, xi⟩ := n
  simp only at hk
  by_cases h : de.isEmpty ∧ di.isEmpty
  · have h1 : de = [] := by simpa using h.1
    have h2 : di = [] := by simpa using h.2
    subst h1; subst h2
    simp [update_citations_from_existing_to_new, appended_citations,
      maybe_fix_citation_data, hk]
  · simp only [update_citations_from_existing_to_new, h, if_false]
    by_cases h1 : de.isEmpty
    · have he : de = [] := by simpa using h1
      subst he
      by_cases h2 : di.isEmpty
      · exact absurd ⟨h1, h2⟩ h
      · rw [citation_fold_next_pos _ _ _ k (by simpa [h2] using hk) hpos]
        simp [h1, h2, appended_citations, maybe_fix_citation_data]
    · by_cases h2 : di.isEmpty
      · have hi : di = [] := by simpa using h2
        subst hi
        rw [citation_fold_next_pos _ _ _ k (by simpa [h2] using hk) hpos]
        simp [h1, h2, appended_citations, maybe_fix_citation_data]
      · rw [citation_fold_next_pos _ _ _ k (by simpa [h2] using hk) hpos]
        simp [h1, h2, appended_citations]

theorem reference_data_ids_fix (l : List Reference) :
    reference_data_ids (maybe_fix_reference_data l) = reference_data_ids l := by
  induction l with
  | nil => rfl
  | cons x xs ih =>
    cases hx : x.citedPaper <;>
      simp [reference_data_ids, maybe_fix_reference_data, List.filter_cons, hx,
        List.filterMap_cons] <;>
      simpa [reference_data_ids, maybe_fix_reference_data] using ih

theorem update_references_data (e n : References) :
    (update_references_from_existing_to_new e n).data
      = maybe_fix_reference_data n.data ++ appended_references e n := by
  obtain ⟨oe, de, xe⟩ := e
  obtain ⟨oi, di, xi⟩ := n
  by_cases h : de.isEmpty ∧ di.isEmpty
  · have h1 : de = [] := by simpa using h.1
    have h2 : di = [] := by simpa using h.2
    subst h1; subst h2
    rfl
  · simp only [update_references_from_existing_to_new, h, if_false]
    by_cases h1 : de.isEmpty
    · have he : de = [] := by simpa using h1
      subst he
      by_cases h2 : di.isEmpty
      · exact absurd ⟨h1, h2⟩ h
      · simp [h1, h2, reference_fold_data, appended_references, maybe_fix_reference_data]
    · by_cases h2 : di.isEmpty
      · have hi : di = [] := by simpa using h2
        subst hi
        simp [h1, h2, reference_fold_data, appended_references, maybe_fix_reference_data]
      · simp [h1, h2, reference_fold_data, appended_references]

theorem update_references_next_pos (e n : References) (k : Int)
    (hk : n.next = some k) (hpos : 0 < k) :
    (update_references_from_existing_to_new e n).next
      = some (k + ((appended_references e n).length : Int)) := by
  obtain ⟨oe, de, xe⟩ := e
  obtain ⟨oi, di, xi⟩ := n
  simp only at hk
  by_cases h : de.isEmpty ∧ di.isEmpty
  · have h1 : de = [] := by simpa using h.1
    have h2 : di = [] := by simpa using h.2
    subst h1; subst h2
    simp [update_references_from_existing_to_new, appended_references,
      maybe_fix_reference_data, hk]
  · simp only [update_references_from_existing_to_new, h, if_false]
    by_cases h1 : de.isEmpty
    · have he : de = [] := by simpa using h1
      subst he
      by_cases h2 : di.isEmpty
      · exact absurd ⟨h1, h2⟩ h
      · rw [reference_fold_next_pos _ _ _ k (by simpa [h2] using hk) hpos]
        simp [h1, h2, appended_references, maybe_fix_reference_data]
    · by_cases h2 : di.isEmpty
      · have hi : di = [] := by simpa using h2
        subst hi
        rw [reference_fold_next_pos _ _ _ k (by simpa [h2] using hk) hpos]
        simp [h1, h2, appended_references, maybe_fix_reference_data]
      · rw [reference_fold_next_pos _ _ _ k (by simpa [h2] using hk) hpos]
        simp [h1, h2, appended_references]

/-! ## Dedup invariant (claim C2) -/

theorem mem_ids_filter_appended (ids : List String) (l : List Citation) (k : String)
    (hk : k ∈ citation_data_ids (l.filter (citation_appended ids))) : k ∉ ids := by
  simp only [citation_data_ids, List.mem_filterMap, List.mem_filter] at hk
  obtain ⟨x, ⟨hxl, hap⟩, hmap⟩ := hk
  cases hx : x.citingPaper with
  | none =>
    rw [hx] at hmap
    exact absurd hmap (by simp)
  | some p =>
    rw [hx] at hmap
    have hpk : p.paperId = k := by simpa using hmap
    simp only [citation_appended, hx, decide_eq_true_eq] at hap
    exact hpk ▸ hap.2

/-- **C2** (amended).  When neither input edge-list already carries two
entries with the same (present) counterpart `paperId`, the merged edge-list
carries no two entries with the same counterpart `paperId`.  As stated over
*every* pair of edge-lists the claim fails: the merge never deduplicates
entries within a single input (see the counterexample). -/
theorem claim2_merge_dedup (e n : Citations)
    (hE : (citation_data_ids e.data).Nodup)
    (hI : (citation_data_ids n.data).Nodup) :
    (citation_data_ids (update_citations_from_existing_to_new e n).data).Nodup := by
  rw [update_citations_data, citation_data_ids_append, List.nodup_append]
  refine ⟨?_, ?_, ?_⟩
  · rw [citation_data_ids_fix]
    exact hI
  · have hsub : List.Sublist (citation_data_ids (appended_citations e n))
        (citation_data_ids e.data) := by
      rw [← citation_data_ids_fix e.data]
      exact List.Sublist.filterMap _ (List.filter_sublist _)
    exact hE.sublist hsub
  · intro k hk1 hk2
    have := mem_ids_filter_appended _ _ k hk2
    rw [citation_data_ids_fix] at hk1
    rw [citation_data_ids_fix] at this
    exact this hk1

/-- Two distinct edge entries citing the same paper id. -/
def c2dupIncoming : Citations :=
  { offset := 0,
    data := [{ citingPaper := some (mkPaper "a" 1) },
             { citingPaper := some (mkPaper "a" 2) }],
    next := none }

/-- **C2** counterexample: merging an empty existing list with an incoming
page that itself repeats a counterpart id returns a page in which two entries
share the same counterpart canonical `paperId`. -/
theorem claim2_counterexample :
    ¬ (citation_data_ids
        (update_citations_from_existing_to_new emptyCitations c2dupIncoming).data).Nodup := by
  decide

/-- Concrete inputs for the C2 witness. -/
def c2e : Citations := { offset := 0, data := [{ citingPaper := some (mkPaper "b" 3) }], next := none }

/-- Concrete incoming page for the C2 witness. -/
def c2n : Citations := { offset := 0, data := [{ citingPaper := some (mkPaper "a" 1) }], next := none }

/-- Witness for C2 at concrete duplicate-free inputs. -/
theorem claim2_witness :
    (citation_data_ids (update_citations_from_existing_to_new c2e c2n).data).Nodup :=
  claim2_merge_dedup c2e c2n (by decide) (by decide)

/-! ## Continuation-cursor compensation (claim C9) -/

/-- **C9** (amended).  Whenever the incoming page's `next` cursor is present
*and positive*, the merge increments it by exactly one per appended legacy
entry: the final cursor is the original plus the number of existing entries
appended, and the merged data is exactly the incoming page followed by those
entries.  As stated for every *present* cursor the claim fails: `if
new_data.next:` is Python truthiness, so a present cursor equal to `0` is
never incremented (see the counterexample). -/
theorem claim9_next_compensation (e n : Citations) (e2 n2 : References)
    (k k2 : Int) (hk : n.next = some k) (hkpos : 0 < k)
    (hk2 : n2.next = some k2) (hk2pos : 0 < k2) :
    (update_citations_from_existing_to_new e n).next
      = some (k + ((appended_citations e n).length : Int)) ∧
    (update_citations_from_existing_to_new e n).data
      = maybe_fix_citation_data n.data ++ appended_citations e n ∧
    (update_references_from_existing_to_new e2 n2).next
      = some (k2 + ((appended_references e2 n2).length : Int)) ∧
    (update_references_from_existing_to_new e2 n2).data
      = maybe_fix_reference_data n2.data ++ appended_references e2 n2 :=
  ⟨update_citations_next_pos e n k hk hkpos, update_citations_data e n,
   update_references_next_pos e2 n2 k2 hk2 hk2pos, update_references_data e2 n2⟩

/-- Existing page whose single entry is appended by the merge. -/
def c9e : Citations :=
  { offset := 0, data := [{ citingPaper := some (mkPaper "x1" 9) }], next := none }

/-- Incoming page with a present cursor equal to `0`. -/
def c9n : Citations := { offset := 0, data := [], next := some 0 }

/-- Reference pages for the C9 witness. -/
def c9e2 : References :=
  { offset := 0, data := [{ citedPaper := some (mkPaper "x2" 8) }], next := none }

/-- Incoming reference page with a positive cursor for the C9 witness. -/
def c9n2 : References := { offset := 0, data := [], next := some 7 }

/-- Incoming citation page with a positive cursor for the C9 witness. -/
def c9npos : Citations := { offset := 0, data := [], next := some 3 }

/-- Witness for C9: one appended entry advances a cursor of `3` to `4` (and
`7` to `8` on the reference side). -/
theorem claim9_witness :
    (update_citations_from_existing_to_new c9e c9npos).next
      = some ((3 : Int) + ((appended_citations c9e c9npos).length : Int)) ∧
    (update_citations_from_existing_to_new c9e c9npos).data
      = maybe_fix_citation_data c9npos.data ++ appended_citations c9e c9npos ∧
    (update_references_from_existing_to_new c9e2 c9n2).next
      = some ((7 : Int) + ((appended_references c9e2 c9n2).length : Int)) ∧
    (update_references_from_existing_to_new c9e2 c9n2).data
      = maybe_fix_reference_data c9n2.data ++ appended_references c9e2 c9n2 :=
  claim9_next_compensation c9e c9npos c9e2 c9n2 3 7 rfl (by decide) rfl (by decide)

/-- **C9** counterexample: with a *present* incoming cursor `next = 0` the
merge appends one legacy entry yet leaves the cursor at `0` instead of
incrementing it to `1`. -/
theorem claim9_counterexample :
    (update_citations_from_existing_to_new c9e c9n).data.length
        = c9n.data.length + 1 ∧
    (update_citations_from_existing_to_new c9e c9n).next = some 0 ∧
    (update_citations_from_existing_to_new c9e c9n).next ≠ some ((0 : Int) + 1) := by
  refine ⟨by decide, by decide, ?_⟩
  intro h
  have h0 : (update_citations_from_existing_to_new c9e c9n).next = some 0 := by decide
  rw [h0] at h
  simp at h

/-! ## Dictionary and setter lemmas -/

theorem dlookup_dinsert {β : Type} (l : List (String × β)) (k k' : String) (v : β) :
    dlookup (dinsert l k v) k' = if k = k' then some v else dlookup l k' := by
  induction l with
  | nil =>
    by_cases h : k = k' <;> simp [dinsert, dlookup, h]
  | cons p rest ih =>
    by_cases hp : p.1 = k
    · by_cases hk : k = k'
      · simp [dinsert, dlookup, hp, hk]
      · have : p.1 ≠ k' := by rw [hp]; exact hk
        simp [dinsert, dlookup, hp, hk, this]
    · by_cases hpk : p.1 = k'
      · have hkk : ¬ k = k' := by
          intro h
          exact hp (h ▸ hpk)
        have hks : ¬ k' = k := fun hh => hkk hh.symm
        simp [dinsert, dlookup, hp, hpk, hkk, hks]
      · simp [dinsert, dlookup, hp, hpk, ih]

theorem dlookup_dinsert_self {β : Type} (l : List (String × β)) (k : String) (v : β) :
    dlookup (dinsert l k v) k = some v := by
  rw [dlookup_dinsert]
  simp

theorem dlookup_dinsert_ne {β : Type} (l : List (String × β)) (k k' : String) (v : β)
    (h : k ≠ k') : dlookup (dinsert l k v) k' = dlookup l k' := by
  rw [dlookup_dinsert]
  simp [h]

@[simp] theorem citations_setReferences (d : PaperDetails) (r : List (Option PaperDetails)) :
    (d.setReferences r).citations = d.citations := by cases d; rfl

@[simp] theorem references_setCitations (d : PaperDetails) (c : List (Option PaperDetails)) :
    (d.setCitations c).references = d.references := by cases d; rfl

@[simp] theorem citations_setCitations (d : PaperDetails) (c : List (Option PaperDetails)) :
    (d.setCitations c).citations = c := by cases d; rfl

@[simp] theorem references_setReferences (d : PaperDetails) (r : List (Option PaperDetails)) :
    (d.setReferences r).references = r := by cases d; rfl

@[simp] theorem paperId_setCitations (d : PaperDetails) (c : List (Option PaperDetails)) :
    (d.setCitations c).paperId = d.paperId := by cases d; rfl

@[simp] theorem paperId_setReferences (d : PaperDetails) (r : List (Option PaperDetails)) :
    (d.setReferences r).paperId = d.paperId := by cases d; rfl

@[simp] theorem paperId_setDuplicateId (d : PaperDetails) (x : Option String) :
    (d.setDuplicateId x).paperId = d.paperId := by cases d; rfl

@[simp] theorem duplicateId_setDuplicateId (d : PaperDetails) (x : Option String) :
    (d.setDuplicateId x).duplicateId = x := by cases d; rfl

@[simp] theorem duplicateId_setCitations (d : PaperDetails) (c : List (Option PaperDetails)) :
    (d.setCitations c).duplicateId = d.duplicateId := by cases d; rfl

@[simp] theorem duplicateId_setReferences (d : PaperDetails) (r : List (Option PaperDetails)) :
    (d.setReferences r).duplicateId = d.duplicateId := by cases d; rfl

@[simp] theorem citationCount_setDuplicateId (d : PaperDetails) (x : Option String) :
    (d.setDuplicateId x).citationCount = d.citationCount := by cases d; rfl

@[simp] theorem citationCount_setCitationCount (d : PaperDetails) (x : Option Int) :
    (d.setCitationCount x).citationCount = x := by cases d; rfl

theorem pySlice_zero_le_length {α : Type} (l : List α) (lim : Int) (h : 0 ≤ lim) :
    ((pySlice l 0 lim).length : Int) ≤ lim := by
  have h0 : ¬ ((0 : Int) < 0) := lt_irrefl 0
  have h2 : ¬ (lim < 0) := not_lt.mpr h
  simp only [pySlice, pySliceIndex, h0, h2, if_false]
  have hlen : (List.take (min lim.toNat l.length - min (0 : Int).toNat l.length)
      (List.drop (min (0 : Int).toNat l.length) l)).length ≤ lim.toNat := by
    simp only [List.length_take, List.length_drop]
    omega
  omega

/-! ## Citation-range clamping (claim C4) -/

/-- **C4** (amended).  For a cached paper whose reported `citationCount` is a
*positive* `cc` and whose cached citation list is fully materialized (at
least `cc` entries, so no network refill is triggered), `citations(key,
offset, limit)` with a positive requested `limit` and `offset + limit > cc`
returns exactly `max (cc - offset) 0` items — `cc - offset` items, or zero
when `offset ≥ cc` — and raises nothing.  As stated over *every* cached
paper the claim fails: a falsy reported count (`0` or `None`) makes the
method raise `ValueError` (see the counterexample). -/
theorem claim4_citations_clamped (data : PaperData) (offset limit cc : Int)
    (refilled : Option PaperData)
    (hcc : data.details.citationCount = some cc) (hpos : 0 < cc)
    (hoff : 0 ≤ offset) (hlim : 0 < limit) (hover : cc < offset + limit)
    (hlen : cc ≤ (data.citations.data.length : Int)) :
    ∃ l, citations_method data offset (some limit) refilled = .ok l ∧
         (l.length : Int) = max (cc - offset) 0 := by
  have ht : intTruthy (some cc) = true := by
    simp only [intTruthy, decide_eq_true_eq]
    omega
  have hl0 : limit ≠ 0 := by omega
  have hclamp : offset + limit > cc := by omega
  have hnofetch : ¬ (offset + (cc - offset) > (data.citations.data.length : Int)) := by
    omega
  have heval : citations_method data offset (some limit) refilled
      = .ok ((pySlice data.citations.data offset (offset + (cc - offset))).map
              (·.citingPaper)) := by
    simp only [citations_method, hcc, ht, not_true_eq_false, if_false, Option.getD_some]
    have e1 : (if limit ≠ 0 then limit else cc - offset) = limit := if_pos hl0
    rw [e1]
    have e2 : (if (offset + limit) > cc then cc - offset else limit) = cc - offset :=
      if_pos hclamp
    rw [e2, if_neg hnofetch]
  refine ⟨_, heval, ?_⟩
  have h0 : ¬ (offset < 0) := not_lt.mpr hoff
  have h2 : ¬ (offset + (cc - offset) < 0) := by omega
  simp only [pySlice, pySliceIndex, h0, h2, if_false, List.length_map,
    List.length_take, List.length_drop]
  omega

/-- A cached paper with a reported citation count of `0`. -/
def c4zero : PaperData :=
  { details := .mk "p0" 4 none (some 0) [] [] [] none,
    citations := { offset := 0, data := [], next := none },
    references := { offset := 0, data := [], next := none } }

/-- **C4** counterexample: with reported total count `0` and `offset = 0`,
`limit = 1` (so `offset + limit > totalCount`), the claim demands zero items
and no exception; the code raises `ValueError` on the falsy count. -/
theorem claim4_counterexample :
    citations_method c4zero 0 (some 1) (some c4zero) = .error .valueError := rfl

/-- A cached paper with two citations, both materialized. -/
def c4two : PaperData :=
  { details := .mk "p4" 4 none (some 2) [] [] [] none,
    citations := { offset := 0,
                   data := [{ citingPaper := some (mkPaper "q1" 5) },
                            { citingPaper := some (mkPaper "q2" 6) }],
                   next := none },
    references := { offset := 0, data := [], next := none } }

/-- Witness for C4: requesting `offset 1, limit 5` on a paper with
`citationCount = 2` yields exactly one item. -/
theorem claim4_witness :
    citations_method c4two 1 (some 5) none = .ok [some (mkPaper "q2" 6)] ∧
    (([some (mkPaper "q2" 6)].length : Int) = max ((2 : Int) - 1) 0) := by
  obtain ⟨l, h1, h2⟩ :=
    claim4_citations_clamped c4two 1 5 2 none rfl (by decide) (by decide) (by decide)
      (by decide) (by decide)
  have h0 : citations_method c4two 1 (some 5) none = .ok [some (mkPaper "q2" 6)] := rfl
  rw [h0] at h1
  injection h1 with h1
  subst h1
  exact ⟨h0, h2⟩

/-! ## JSONL round trip (claim C6) -/

/-- **C6** (amended).  For every canonical key and every `PaperData` whose
reported `citationCount` is a present integer at least the length of the
stored citation list, `dump_paper_data` followed by `get_paper_data` on the
same key returns the record unchanged, field for field.  As stated over
*every* `PaperData` the claim fails: `dump_paper_data` first runs
`if len(data.citations.data) > data.details.citationCount`, which rewrites a
smaller reported count to the list length (counterexample below) and raises
`TypeError` outright when the count is `None`. -/
theorem claim6_roundtrip (store : List (String × PaperData)) (ID : String)
    (data : PaperData) (cc : Int)
    (hcc : data.details.citationCount = some cc)
    (hlen : (data.citations.data.length : Int) ≤ cc) :
    ∃ store2, dump_paper_data store ID data = .ok store2 ∧
              get_paper_data store2 ID = some data := by
  refine ⟨dinsert store ID data, ?_, ?_⟩
  · simp only [dump_paper_data, clamp_citation_count, hcc]
    rw [if_neg (not_lt.mpr hlen)]
  · exact dlookup_dinsert_self store ID data

/-- A record whose stored citation list is longer than its reported count. -/
def c6bad : PaperData :=
  { details := .mk "p6" 6 none (some 0) [] [] [] none,
    citations := { offset := 0, data := [{ citingPaper := some (mkPaper "q6" 7) }],
                   next := none },
    references := { offset := 0, data := [], next := none } }

/-- What the store actually keeps for `c6bad`: the count is rewritten to `1`. -/
def c6stored : PaperData :=
  { c6bad with details := c6bad.details.setCitationCount (some 1) }

/-- **C6** counterexample: `put` of a record with `citationCount = 0` and one
stored citation writes a record with `citationCount = 1`, so `get` does not
return a record field-for-field equal to the one given to `put`. -/
theorem claim6_counterexample :
    dump_paper_data [] "p6" c6bad = .ok [("p6", c6stored)] ∧
    get_paper_data [("p6", c6stored)] "p6" = some c6stored ∧
    c6stored ≠ c6bad := by
  refine ⟨rfl, rfl, ?_⟩
  intro h
  have hc := congrArg (fun d => d.details.citationCount) h
  simp only [c6stored, c6bad, citationCount_setCitationCount] at hc
  exact absurd hc (by decide)

/-- A well-counted record for the C6 witness. -/
def c6good : PaperData :=
  { details := .mk "p7" 8 none (some 1) [] [] [] none,
    citations := { offset := 0, data := [{ citingPaper := some (mkPaper "q7" 9) }],
                   next := none },
    references := { offset := 0, data := [], next := none } }

/-- Witness for C6 at a concrete record with a consistent count. -/
theorem claim6_witness :
    dump_paper_data [] "p7" c6good = .ok [("p7", c6good)] ∧
    get_paper_data [("p7", c6good)] "p7" = some c6good := by
  obtain ⟨store2, h1, h2⟩ := claim6_roundtrip [] "p7" c6good 1 rfl (by decide)
  have h0 : dump_paper_data [] "p7" c6good = .ok [("p7", c6good)] := rfl
  rw [h0] at h1
  injection h1 with h1
  subst h1
  exact ⟨h0, h2⟩

/-! ## Identifier-kind classification (claim C8) -/

/-- The `_extid_metadata` skeleton that `load_metadata` builds over an empty
cache: `{k: {} for k in IdKeys if k.lower() != "ss"}`, with `IdKeys` the
sorted non-`"SS"` keys of `NameToIds`. -/
def freshLoadedState : S2State :=
  { extidMetadata := [("ACL", []), ("ARXIV", []), ("DBLP", []), ("DOI", []),
                      ("MAG", []), ("PUBMED", []), ("PUBMEDCENTRAL", []),
                      ("URL", []), ("corpusId", [])] }

/-- The default `data` configuration of `config.default_config` (limits only). -/
def defaultDataConfig : DataConfig :=
  { details := { limit := 100 }, references := { limit := 100 },
    citations := { limit := 100 }, search := { limit := 10 },
    author := { limit := 100 }, author_papers := { limit := 100 } }

/-- **C8** (amended).  Identifier-kind classification factors through
`id_to_name` (upper-casing, with the `corpusId` special case), hence is
case-insensitive: any casing of `"arxiv"` classifies to the ArXiv kind.  Any
kind string whose normalized name is outside `NameToIds` fails with the
`Invalid ID type` error value.  The claim's alias `"arxivid"`, however, is
*not* accepted by `id_to_prefix_and_id` — that alias exists only in the
metadata-rebuild table of the JSONL backend (see the counterexample). -/
theorem claim8_classification :
    (∀ (s : S2State) (k1 k2 ID : String), id_to_name k1 = id_to_name k2 →
        id_to_prefix_and_id s k1 ID = id_to_prefix_and_id s k2 ID) ∧
    (∀ (s : S2State) (kt ID : String), dlookup NameToIds (id_to_name kt) = none →
        id_to_prefix_and_id s kt ID
          = .err { message := "Invalid ID type " ++ id_to_name kt }) ∧
    id_to_prefix_and_id freshLoadedState "arxiv" "2010.06775" = .ok "ARXIV" "" false ∧
    id_to_prefix_and_id freshLoadedState "ARXIV" "2010.06775" = .ok "ARXIV" "" false ∧
    id_to_prefix_and_id freshLoadedState "ArXiv" "2010.06775" = .ok "ARXIV" "" false := by
  refine ⟨?_, ?_, ?_, ?_, ?_⟩
  · intro s k1 k2 ID h
    simp only [id_to_prefix_and_id, h]
  · intro s kt ID h
    simp only [id_to_prefix_and_id, h]
  · decide
  · decide
  · decide

/-- **C8** counterexample: `"arxivid"` does not classify to the ArXiv kind —
`id_to_name("arxivid") = "ARXIVID"` is not a key of `NameToIds`, so
`id_to_prefix_and_id` returns the invalid-ID-kind error value. -/
theorem claim8_counterexample :
    id_to_prefix_and_id freshLoadedState "arxivid" "2010.06775"
      = .err { message := "Invalid ID type ARXIVID" } ∧
    id_to_prefix_and_id freshLoadedState "arxivid" "2010.06775"
      ≠ .ok "ARXIV" "" false := by
  constructor
  · decide
  · decide

/-- Witness for C8: the two quantified parts applied at concrete inputs. -/
theorem claim8_witness :
    id_to_prefix_and_id freshLoadedState "arxiv" "1"
      = id_to_prefix_and_id freshLoadedState "ARXIV" "1" ∧
    id_to_prefix_and_id freshLoadedState "doii" "1"
      = .err { message := "Invalid ID type " ++ id_to_name "doii" } :=
  ⟨claim8_classification.1 freshLoadedState "arxiv" "ARXIV" "1" (by decide),
   claim8_classification.2.1 freshLoadedState "doii" "1" (by decide)⟩

/-! ## DBLP lookups (claim C5) -/

/-- **C5** (code bug).  A DBLP-kind lookup with no cached mapping is supposed
to fail with the distinct `check_for_dblp` error value and no network call.
`check_for_dblp` does produce that value when handed an ID-kind *name* — but
`get_details_for_id` (like `get_data_for_id` and `id_to_corpus_id`) hands it
`id_prefix`, and `IdPrefixes` has no `dblp` entry, so the prefix is `""` and
`NameToIds[id_to_name("")]` raises an uncaught `KeyError` before any network
call.  The third conjunct shows the resolution step itself succeeds with an
empty prefix and ssid, pinning the failure on the misdirected guard. -/
theorem claim5_dblp_keyerror :
    get_details_for_id freshLoadedState defaultDataConfig "dblp"
        "conf/acl/SmithJ20" false = .raised .keyError ∧
    check_for_dblp "" = .error .keyError ∧
    id_to_prefix_and_id freshLoadedState "dblp" "conf/acl/SmithJ20"
      = .ok "" "" false ∧
    check_for_dblp "DBLP"
      = .ok (some { message :=
          "Details for DBLP IDs cannot be fetched directly from SemanticScholar" }) :=
  ⟨rfl, rfl, by decide, rfl⟩

/-! ## Truncation on a copy (claim C10) -/

@[simp] theorem setDup_citations (d : PaperData) (x : Option String) :
    (setDup d x).citations = d.citations := rfl

@[simp] theorem setDup_references (d : PaperData) (x : Option String) :
    (setDup d x).references = d.references := rfl

theorem apply_limits_citations (cfg : DataConfig) (d : PaperDetails) :
    (apply_limits cfg d).citations
      = if d.citations.isEmpty then d.citations
        else pySlice d.citations 0 cfg.citations.limit := by
  unfold apply_limits
  by_cases h1 : d.citations.isEmpty <;> by_cases h2 : d.references.isEmpty <;>
    simp [h1, h2]

theorem apply_limits_references (cfg : DataConfig) (d : PaperDetails) :
    (apply_limits cfg d).references
      = if d.references.isEmpty then d.references
        else pySlice d.references 0 cfg.references.limit := by
  unfold apply_limits
  by_cases h1 : d.citations.isEmpty <;> by_cases h2 : d.references.isEmpty <;>
    simp [h1, h2]

theorem apply_limits_citations_le (cfg : DataConfig) (d : PaperDetails)
    (hc : 0 ≤ cfg.citations.limit) :
    (((apply_limits cfg d).citations).length : Int) ≤ cfg.citations.limit := by
  rw [apply_limits_citations]
  by_cases h1 : d.citations.isEmpty
  · have : d.citations = [] := by simpa using h1
    simp [h1, this, hc]
  · simp only [h1, if_false]
    exact pySlice_zero_le_length _ _ hc

theorem apply_limits_references_le (cfg : DataConfig) (d : PaperDetails)
    (hr : 0 ≤ cfg.references.limit) :
    (((apply_limits cfg d).references).length : Int) ≤ cfg.references.limit := by
  rw [apply_limits_references]
  by_cases h1 : d.references.isEmpty
  · have : d.references = [] := by simpa using h1
    simp [h1, this, hr]
  · simp only [h1, if_false]
    exact pySlice_zero_le_length _ _ hr

theorem dinsert_preserves_mem (mem : List (String × PaperData)) (id2 : String)
    (v : PaperData)
    (hv : ∀ pd0, dlookup mem id2 = some pd0 →
            v.citations = pd0.citations ∧ v.references = pd0.references) :
    ∀ key pd, dlookup mem key = some pd →
      ∃ pd2, dlookup (dinsert mem id2 v) key = some pd2 ∧
             pd2.citations = pd.citations ∧ pd2.references = pd.references := by
  intro key pd hk
  by_cases hkey : id2 = key
  · subst hkey
    exact ⟨v, dlookup_dinsert_self _ _ _, (hv pd hk).1, (hv pd hk).2⟩
  · exact ⟨pd, by rw [dlookup_dinsert_ne _ _ _ _ hkey]; exact hk, rfl, rfl⟩

theorem check_cache_preserves (s : S2State) (ID : String) :
    ∀ key pd, dlookup s.inMemory key = some pd →
      ∃ pd2, dlookup (check_cache s ID).1.inMemory key = some pd2 ∧
             pd2.citations = pd.citations ∧ pd2.references = pd.references := by
  intro key pd hk
  rcases hcd : check_duplicate s ID with ⟨id2, dup⟩
  rcases hmem : dlookup s.inMemory id2 with _ | pd0
  · rcases hb : dlookup s.backend id2 with _ | pd0
    · have hcc : (check_cache s ID).1 = s := by
        simp only [check_cache, hcd, hmem, hb]
      rw [hcc]
      exact ⟨pd, hk, rfl, rfl⟩
    · have hcc : (check_cache s ID).1.inMemory
          = dinsert s.inMemory id2 (setDup pd0 dup) := by
        simp only [check_cache, hcd, hmem, hb]
      rw [hcc]
      refine dinsert_preserves_mem s.inMemory id2 (setDup pd0 dup) ?_ key pd hk
      intro pd1 hpd1
      rw [hmem] at hpd1
      cases hpd1
  · have hcc : (check_cache s ID).1.inMemory
        = dinsert s.inMemory id2 (setDup pd0 dup) := by
      simp only [check_cache, hcd, hmem]
    rw [hcc]
    refine dinsert_preserves_mem s.inMemory id2 (setDup pd0 dup) ?_ key pd hk
    intro pd1 hpd1
    rw [hmem] at hpd1
    injection hpd1 with hpd1
    subst hpd1
    exact ⟨rfl, rfl⟩

theorem check_cache_some_mem (s : S2State) (ID : String) (s1 : S2State)
    (data : PaperData) (h : check_cache s ID = (s1, some data)) :
    dlookup s1.inMemory (check_duplicate s ID).1 = some data := by
  rcases hcd : check_duplicate s ID with ⟨id2, dup⟩
  simp only [check_cache, hcd] at h
  rcases hmem : dlookup s.inMemory id2 with _ | pd0
  · rcases hb : dlookup s.backend id2 with _ | pd0
    · rw [hmem, hb] at h
      cases h
    · rw [hmem, hb] at h
      injection h with h1 h2
      injection h2 with h2
      subst h2
      rw [← h1]
      simp only [hcd]
      exact dlookup_dinsert_self _ _ _
  · rw [hmem] at h
    injection h with h1 h2
    injection h2 with h2
    subst h2
    rw [← h1]
    simp only [hcd]
    exact dlookup_dinsert_self _ _ _

theorem fetch_cached_ok_preserves (s : S2State) (hm : Bool) (ID : String)
    (s2 : S2State) (det : PaperDetails)
    (h : fetch_from_cache_or_api_cached s hm ID false false = some (s2, .inr det)) :
    ∀ key pd, dlookup s.inMemory key = some pd →
      ∃ pd2, dlookup s2.inMemory key = some pd2 ∧
             pd2.citations = pd.citations ∧ pd2.references = pd.references := by
  intro key pd hk
  by_cases hcolon : pyContainsChar ID ':'
  · rcases hcc : check_cache s ID with ⟨s1, d?⟩
    simp only [fetch_from_cache_or_api_cached, hcolon, not_true, Bool.false_eq_true,
      not_false_eq_true, if_true, if_false] at h
    rw [hcc] at h
    simp only [strOptTruthy] at h
    by_cases hhm : hm
    · simp only [hhm] at h
      rcases d? with _ | data
      · simp at h
      · simp only [reduceCtorEq, or_false, ne_eq, if_true] at h
        have hs : s2 = s1 := by
          simp at h
          exact h.1.symm
        subst hs
        have := check_cache_preserves s ID key pd hk
        rw [hcc] at this
        exact this
    · simp [hhm] at h
  · rcases hcd : check_duplicate s ID with ⟨id2, dup⟩
    rcases hcc : check_cache s id2 with ⟨s1, d?⟩
    simp only [fetch_from_cache_or_api_cached, hcolon, hcd, not_true, Bool.false_eq_true,
      not_false_eq_true, if_true, if_false] at h
    rw [hcc] at h
    by_cases hcond : (hm = true ∨ strOptTruthy dup = true)
    · rw [if_pos hcond] at h
      rcases d? with _ | data
      · simp at h
      · simp only [] at h
        by_cases hdup : strOptTruthy dup = true
        · simp only [hdup, if_true] at h
          have hs : s2 = { s1 with inMemory := dinsert s1.inMemory (check_duplicate s id2).1 (setDup data dup) } := by
            simp at h
            exact h.1.symm
          subst hs
          obtain ⟨pd2, hpd2, hc2, hr2⟩ := by
            have := check_cache_preserves s id2 key pd hk
            rw [hcc] at this
            exact this
          simp only []
          refine dinsert_preserves_mem s1.inMemory (check_duplicate s id2).1
            (setDup data dup) ?_ key pd2 hpd2 |>.imp ?_
          · intro pd0 hpd0
            have hmm := check_cache_some_mem s id2 s1 data hcc
            rw [hmm] at hpd0
            injection hpd0 with hpd0
            subst hpd0
            exact ⟨rfl, rfl⟩
          · intro x hx
            exact ⟨hx.1, hx.2.1.trans hc2, hx.2.2.trans hr2⟩
        · simp only [hdup, if_false] at h
          have hs : s2 = s1 := by
            simp at h
            exact h.1.symm
          subst hs
          have := check_cache_preserves s id2 key pd hk
          rw [hcc] at this
          exact this
    · rw [if_neg hcond] at h
      cases h

theorem get_details_ok_inv (s : S2State) (cfg : DataConfig) (id_type ID : String)
    (s2 : S2State) (det : PaperDetails)
    (hres : get_details_for_id s cfg id_type ID false = .ok s2 det) :
    ∃ hmFlag fid det0,
      fetch_from_cache_or_api_cached s hmFlag fid false false = some (s2, .inr det0) ∧
      det = apply_limits cfg det0 := by
  unfold get_details_for_id at hres
  rcases hpre : id_to_prefix_and_id s id_type ID with e | e | ⟨pfx, ssid, hm⟩ <;>
    rw [hpre] at hres
  · cases hres
  · cases hres
  · by_cases hss : ssid = ""
    · simp only [hss, if_true, ite_true] at hres
      rcases hdb : check_for_dblp pfx with e | o <;> rw [hdb] at hres
      · cases hres
      · rcases o with _ | er
        · simp only [] at hres
          rcases hf : fetch_from_cache_or_api_cached s hm (pfx ++ ":" ++ ID) false false
            with _ | ⟨s', r⟩ <;> rw [hf] at hres
          · cases hres
          · rcases r with d | det0
            · cases hres
            · injection hres with h1 h2
              subst h1
              subst h2
              exact ⟨hm, pfx ++ ":" ++ ID, det0, hf, rfl⟩
        · cases hres
    · simp only [hss, if_false, ite_false] at hres
      rcases hf : fetch_from_cache_or_api_cached s hm ssid false false
        with _ | ⟨s', r⟩ <;> rw [hf] at hres
      · cases hres
      · rcases r with d | det0
        · cases hres
        · injection hres with h1 h2
          subst h1
          subst h2
          exact ⟨hm, ssid, det0, hf, rfl⟩

/-- **C10** (confirmed, given non-negative configured limits).  Every
successful cache-served `get_details_for_id` call returns details whose
citation and reference lists are truncated to at most the configured limits,
and the truncation is applied to a copy: every record that was in the
in-memory cache is still there afterwards with all of its citation and
reference entries unchanged (only the caller-transparency `duplicateId` field
is ever restamped). -/
theorem claim10_limits_and_cache (s : S2State) (cfg : DataConfig)
    (id_type ID : String) (s2 : S2State) (det : PaperDetails)
    (hres : get_details_for_id s cfg id_type ID false = .ok s2 det)
    (hc : 0 ≤ cfg.citations.limit) (hr : 0 ≤ cfg.references.limit) :
    ((det.citations.length : Int) ≤ cfg.citations.limit ∧
     (det.references.length : Int) ≤ cfg.references.limit) ∧
    (∀ key pd, dlookup s.inMemory key = some pd →
       ∃ pd2, dlookup s2.inMemory key = some pd2 ∧
              pd2.citations = pd.citations ∧ pd2.references = pd.references) := by
  obtain ⟨hmF, fid, det0, hf, hdet⟩ := get_details_ok_inv s cfg id_type ID s2 det hres
  subst hdet
  exact ⟨⟨apply_limits_citations_le cfg det0 hc, apply_limits_references_le cfg det0 hr⟩,
         fetch_cached_ok_preserves s hmF fid s2 det0 hf⟩

/-- A cached record for the C10 witness. -/
def c10data : PaperData :=
  { details := .mk "k10" 10 none (some 1) [] [] [] none,
    citations := { offset := 0, data := [{ citingPaper := some (mkPaper "c10" 11) }],
                   next := none },
    references := { offset := 0, data := [], next := none } }

/-- A state whose metadata index and in-memory cache know `"k10"`. -/
def c10state : S2State :=
  { freshLoadedState with corpusMap := [("k10", 10)],
                          inMemory := [("k10", c10data)] }

/-- The state after the witness lookup (duplicateId restamped to `none`). -/
def c10s2 : S2State :=
  { c10state with inMemory := [("k10", setDup c10data none)] }

/-- The details the witness lookup returns. -/
def c10det : PaperDetails :=
  apply_limits defaultDataConfig (to_details (setDup c10data none))

/-- Witness for C10: a concrete cache-hit lookup whose result respects the
limits while the cached record keeps its entries. -/
theorem claim10_witness :
    ((c10det.citations.length : Int) ≤ defaultDataConfig.citations.limit ∧
     (c10det.references.length : Int) ≤ defaultDataConfig.references.limit) ∧
    (∃ pd2, dlookup c10s2.inMemory "k10" = some pd2 ∧
            pd2.citations = c10data.citations ∧ pd2.references = c10data.references) := by
  have h := claim10_limits_and_cache c10state defaultDataConfig "SS" "k10" c10s2 c10det
    rfl (by decide) (by decide)
  exact ⟨h.1, h.2 "k10" c10data rfl⟩

/-! ## Duplicate-annotated lookups (claim C7) -/

@[simp] theorem setDup_details (d : PaperData) (x : Option String) :
    (setDup d x).details = d.details.setDuplicateId x := rfl

@[simp] theorem duplicateId_setDup (d : PaperData) (x : Option String) :
    (setDup d x).details.duplicateId = x := by
  cases d with
  | mk det c r => simp [setDup]

@[simp] theorem paperId_setDup (d : PaperData) (x : Option String) :
    (setDup d x).details.paperId = d.details.paperId := by
  cases d with
  | mk det c r => simp [setDup]

theorem to_details_paperId (d : PaperData) : (to_details d).paperId = d.details.paperId := by
  simp [to_details]

theorem to_details_duplicateId (d : PaperData) :
    (to_details d).duplicateId = d.details.duplicateId := by
  simp [to_details]

theorem fetch_cached_dup_hit (s : S2State) (hm : Bool) (D K : String) (pd : PaperData)
    (hD : pyContainsChar D ':' = false) (hDne : D ≠ "")
    (hdup : dlookup s.knownDuplicates D = some K)
    (hterm : dlookup s.knownDuplicates K = none)
    (hmem : dlookup s.inMemory K = some pd) :
    fetch_from_cache_or_api_cached s hm D false false
      = some ({ s with inMemory := dinsert (dinsert s.inMemory K (setDup pd none)) K (setDup (setDup pd none) (some D)) },
              .inr (to_details (setDup (setDup pd none) (some D)))) := by
  have hcdD : check_duplicate s D = (K, some D) := by simp [check_duplicate, hdup]
  have hcdK : check_duplicate s K = (K, none) := by simp [check_duplicate, hterm]
  have htr : strOptTruthy (some D) = true := by simp [strOptTruthy, hDne]
  simp only [fetch_from_cache_or_api_cached, hD, Bool.false_eq_true, not_false_eq_true,
    if_true, if_false, hcdD, check_cache, hcdK, hmem, htr, eq_self_iff_true, or_true]

theorem fetch_cached_terminal_hit (s : S2State) (K : String) (pd : PaperData)
    (hK : pyContainsChar K ':' = false)
    (hterm : dlookup s.knownDuplicates K = none)
    (hmem : dlookup s.inMemory K = some pd) :
    fetch_from_cache_or_api_cached s true K false false
      = some ({ s with inMemory := dinsert s.inMemory K (setDup pd none) },
              .inr (to_details (setDup pd none))) := by
  have hcdK : check_duplicate s K = (K, none) := by simp [check_duplicate, hterm]
  simp only [fetch_from_cache_or_api_cached, hK, Bool.false_eq_true, not_false_eq_true,
    if_true, if_false, hcdK, check_cache, hmem, strOptTruthy, eq_self_iff_true, true_or,
    or_false]

/-- **C7** (confirmed).  If `D` is recorded as a known duplicate of a
terminal canonical key `K` whose record is cached under `K` with
`details.paperId = K`, then a `fetch_from_cache_or_api` lookup of `D`
(colon-free ids, no force) returns details with `paperId = K` and
`duplicateId = D`, and a subsequent lookup of `K` itself returns details with
`paperId = K` and `duplicateId = None`. -/
theorem claim7_duplicate_transparency (s : S2State) (hm : Bool) (D K : String)
    (pd : PaperData)
    (hdup : dlookup s.knownDuplicates D = some K)
    (hterm : dlookup s.knownDuplicates K = none)
    (hmem : dlookup s.inMemory K = some pd)
    (hpid : pd.details.paperId = K)
    (hD : pyContainsChar D ':' = false) (hK : pyContainsChar K ':' = false)
    (hDne : D ≠ "") :
    ∃ s1 det1 s2 det2,
      fetch_from_cache_or_api_cached s hm D false false = some (s1, .inr det1) ∧
      det1.paperId = K ∧ det1.duplicateId = some D ∧
      fetch_from_cache_or_api_cached s1 true K false false = some (s2, .inr det2) ∧
      det2.paperId = K ∧ det2.duplicateId = none := by
  refine ⟨_, _, _, _, fetch_cached_dup_hit s hm D K pd hD hDne hdup hterm hmem,
    ?_, ?_,
    fetch_cached_terminal_hit _ K (setDup (setDup pd none) (some D)) hK ?_ ?_,
    ?_, ?_⟩
  · rw [to_details_paperId]
    simp [hpid]
  · rw [to_details_duplicateId]
    simp
  · exact hterm
  · exact dlookup_dinsert_self _ _ _
  · rw [to_details_paperId]
    simp [hpid]
  · rw [to_details_duplicateId]
    simp

/-- A cached canonical record for the C7 witness. -/
def c7data : PaperData :=
  { details := .mk "k7" 70 none (some 0) [] [] [] none,
    citations := { offset := 0, data := [], next := none },
    references := { offset := 0, data := [], next := none } }

/-- A state in which `"d7"` is a known duplicate of the cached key `"k7"`. -/
def c7state : S2State :=
  { freshLoadedState with knownDuplicates := [("d7", "k7")],
                          inMemory := [("k7", c7data)] }

/-- Witness for C7 at a concrete duplicate pair. -/
theorem claim7_witness :
    ∃ s1 det1 s2 det2,
      fetch_from_cache_or_api_cached c7state false "d7" false false
        = some (s1, .inr det1) ∧
      det1.paperId = "k7" ∧ det1.duplicateId = some "d7" ∧
      fetch_from_cache_or_api_cached s1 true "k7" false false
        = some (s2, .inr det2) ∧
      det2.paperId = "k7" ∧ det2.duplicateId = none :=
  claim7_duplicate_transparency c7state false "d7" "k7" c7data rfl rfl rfl rfl rfl rfl
    (by decide)

/-! ## Duplicate-chain convergence (claim C3) -/

/-- The one-hop invariant on the known-duplicates table: every key maps
directly to a terminal key, never to another duplicate key. -/
def one_hop (t : List (String × String)) : Prop :=
  ∀ k v, dlookup t k = some v → dlookup t v = none

@[simp] theorem upm_knownDuplicates (s : S2State) (d : PaperDetails) :
    (update_paper_metadata s d).knownDuplicates = s.knownDuplicates := rfl

@[simp] theorem upm_inferredDuplicatesMap (s : S2State) (d : PaperDetails) :
    (update_paper_metadata s d).inferredDuplicatesMap = s.inferredDuplicatesMap := rfl

theorem maybe_add_no_op (s : S2State) (ID : String)
    (h : dlookup s.inferredDuplicatesMap ID = none) :
    maybe_add_inferred_duplicate_to_known_duplicates s ID = s := by
  simp [maybe_add_inferred_duplicate_to_known_duplicates, h]

theorem check_cache_knownDuplicates (s : S2State) (ID : String) :
    (check_cache s ID).1.knownDuplicates = s.knownDuplicates := by
  rcases hcd : check_duplicate s ID with ⟨id2, dup⟩
  simp only [check_cache, hcd]
  cases h1 : dlookup s.inMemory id2
  · cases h2 : dlookup s.backend id2 <;> simp
  · simp

theorem check_cache_inferredDuplicatesMap (s : S2State) (ID : String) :
    (check_cache s ID).1.inferredDuplicatesMap = s.inferredDuplicatesMap := by
  rcases hcd : check_duplicate s ID with ⟨id2, dup⟩
  simp only [check_cache, hcd]
  cases h1 : dlookup s.inMemory id2
  · cases h2 : dlookup s.backend id2 <;> simp
  · simp

theorem record_knownDuplicates (s : S2State) (ID : String) (data : PaperData)
    (discard : Bool) (s2 : S2State)
    (hrun : update_paper_details_in_backend s ID data discard = .ok s2)
    (hinf : dlookup s.inferredDuplicatesMap ID = none) :
    s2.knownDuplicates
      = if ID ≠ data.details.paperId
        then dinsert s.knownDuplicates ID data.details.paperId
        else s.knownDuplicates := by
  unfold update_paper_details_in_backend at hrun
  by_cases hd : discard
  · simp only [hd, not_true_eq_false, if_false] at hrun
    rcases hcl : clamp_citation_count data with e | data2 <;> rw [hcl] at hrun
    · cases hrun
    · injection hrun with h
      subst h
      simp only [upm_knownDuplicates]
      rw [maybe_add_no_op _ ID (by simpa using hinf)]
      by_cases hne : ID ≠ data.details.paperId <;> simp [hne]
  · simp only [hd, not_false_eq_true, if_true] at hrun
    rcases hcc : check_cache s data.details.paperId with ⟨sa, d?⟩
    rw [hcc] at hrun
    simp only [Bool.false_eq_true, not_false_eq_true, if_true, if_false,
      not_true_eq_false] at hrun
    have hka : sa.knownDuplicates = s.knownDuplicates := by
      have := check_cache_knownDuplicates s data.details.paperId
      rw [hcc] at this
      exact this
    have hia : sa.inferredDuplicatesMap = s.inferredDuplicatesMap := by
      have := check_cache_inferredDuplicatesMap s data.details.paperId
      rw [hcc] at this
      exact this
    rcases d? with _ | existing
    · simp only [] at hrun
      rcases hcl : clamp_citation_count data with e | data2 <;> rw [hcl] at hrun
      · cases hrun
      · injection hrun with h
        subst h
        simp only [upm_knownDuplicates]
        rw [maybe_add_no_op _ ID (by simp [hia, hinf])]
        by_cases hne : ID ≠ data.details.paperId <;> simp [hne, hka]
    · simp only [] at hrun
      rcases hcl : clamp_citation_count
          { data with
              citations := update_citations_from_existing_to_new
                             existing.citations data.citations,
              references := update_references_from_existing_to_new
                              existing.references data.references }
        with e | data2 <;> rw [hcl] at hrun
      · cases hrun
      · injection hrun with h
        subst h
        simp only [upm_knownDuplicates]
        rw [maybe_add_no_op _ ID (by simp [hia, hinf])]
        by_cases hne : ID ≠ data.details.paperId <;> simp [hne, hka]

theorem dlookup_mem {β : Type} (l : List (String × β)) (k : String) (v : β)
    (h : dlookup l k = some v) : (k, v) ∈ l := by
  induction l with
  | nil => cases h
  | cons p rest ih =>
    by_cases hp : p.1 = k
    · simp only [dlookup, hp, if_true] at h
      injection h with h
      subst h
      have hpk : p = (k, p.2) := by rw [← hp]
      rw [← hpk]
      exact List.mem_cons_self _ _
    · simp only [dlookup, hp, if_false] at h
      exact List.mem_cons_of_mem _ (ih h)

theorem one_hop_dinsert (t : List (String × String)) (k v : String)
    (hone : one_hop t) (hkv : k ≠ v)
    (htgt : dlookup t v = none)
    (hval : ∀ kv' ∈ t, kv'.2 ≠ k) :
    one_hop (dinsert t k v) := by
  intro a b hab
  rw [dlookup_dinsert] at hab
  by_cases hak : k = a
  · rw [if_pos hak] at hab
    injection hab with hab
    subst hab
    rw [dlookup_dinsert, if_neg hkv]
    exact htgt
  · rw [if_neg hak] at hab
    have hbk : k ≠ b := by
      intro hkb
      exact hval (a, b) (dlookup_mem t a b hab) (by simp [← hkb])
    rw [dlookup_dinsert, if_neg hbk]
    exact hone a b hab

/-- **C3** (amended).  A `record()` call
(`_update_paper_details_in_backend`) writes the single edge
`requested ID → fetched paperId` directly into `known_duplicates`.  The
table stays one-hop *provided all three* side conditions hold: (i) the
fetched canonical key is not already a duplicate source, (ii) the requested
ID is not already a canonical target, and (iii) the requested ID is not a
member of an inferred-duplicate group (`hinf`).  Each condition is forced:
the code never rewrites existing edges, so a re-canonicalizing sequence
violating (i)/(ii) chains duplicates (first counterexample, `A → B → C`);
and when (iii) fails, the lazy promote path
`maybe_add_inferred_duplicate_to_known_duplicates` writes `dup → ID` for the
other group members right before `update_duplicates` writes
`ID → paperId`, so a *single* call satisfying (i) and (ii) still leaves the
chain `X → A → P` (second counterexample). -/
theorem claim3_one_hop_preserved (s : S2State) (ID : String) (data : PaperData)
    (discard : Bool) (s2 : S2State)
    (hrun : update_paper_details_in_backend s ID data discard = .ok s2)
    (hone : one_hop s.knownDuplicates)
    (hinf : dlookup s.inferredDuplicatesMap ID = none)
    (htgt : dlookup s.knownDuplicates data.details.paperId = none)
    (hval : ∀ kv ∈ s.knownDuplicates, kv.2 ≠ ID) :
    one_hop s2.knownDuplicates := by
  rw [record_knownDuplicates s ID data discard s2 hrun hinf]
  by_cases hne : ID ≠ data.details.paperId
  · rw [if_pos hne]
    exact one_hop_dinsert s.knownDuplicates ID data.details.paperId hone hne htgt hval
  · rw [if_neg hne]
    exact hone

/-- First record call: requested `"A"`, server returned canonical `"B"`. -/
def c3dataB : PaperData :=
  { details := .mk "B" 1 none (some 0) [] [] [] none,
    citations := { offset := 0, data := [], next := none },
    references := { offset := 0, data := [], next := none } }

/-- Second record call: requested `"B"`, server returned canonical `"C"`. -/
def c3dataC : PaperData :=
  { details := .mk "C" 2 none (some 0) [] [] [] none,
    citations := { offset := 0, data := [], next := none },
    references := { offset := 0, data := [], next := none } }

/-- The two-call record sequence `record("A", B-data); record("B", C-data)`. -/
def c3run : Except PyExn S2State :=
  match update_paper_details_in_backend freshLoadedState "A" c3dataB false with
  | .error e => .error e
  | .ok s1 => update_paper_details_in_backend s1 "B" c3dataC false

/-- Record data for the inferred-group scenario: requested `"A"`, server
returned canonical `"P"`. -/
def c3dataP : PaperData :=
  { details := .mk "P" 3 none (some 0) [] [] [] none,
    citations := { offset := 0, data := [], next := none },
    references := { offset := 0, data := [], next := none } }

/-- A state holding the inferred-duplicate group `{X, A}` (corpus id 5) and
an empty (hence one-hop) known-duplicates table. -/
def c3inferredState : S2State :=
  { freshLoadedState with
    inferredDuplicates := [(5, ["X", "A"])],
    inferredDuplicatesMap := [("X", 5), ("A", 5)] }

/-- The single record call `record("A", P-data)` on the inferred-group state:
every side condition on the known-duplicates table holds beforehand (the
table is empty), yet the promote path plus `update_duplicates` chain
`X → A → P`. -/
def c3run2 : Except PyExn S2State :=
  update_paper_details_in_backend c3inferredState "A" c3dataP false

/-- **C3** counterexample: two ways `record()` leaves a chained table.
After `record("A", B-data); record("B", C-data)` the table maps `A → B` and
`B → C`, and the one-hop resolution `_check_duplicate` sends `A` to `B` but
`B` to `C` — two members of one chain resolve to different keys.  And a
*single* call `record("A", P-data)` on a state whose only duplicate
knowledge is the inferred group `{X, A}` — with the known-duplicates table
empty, so one-hop, with `P` not a duplicate source and `A` not a canonical
target — leaves `X → A` and `A → P`, again a chain. -/
theorem claim3_counterexample :
    (c3run.map (fun s2 =>
        (dlookup s2.knownDuplicates "A", dlookup s2.knownDuplicates "B",
         (check_duplicate s2 "A").1, (check_duplicate s2 "B").1))
      = .ok (some "B", some "C", "B", "C")) ∧
    (c3run2.map (fun s2 =>
        (dlookup s2.knownDuplicates "X", dlookup s2.knownDuplicates "A",
         (check_duplicate s2 "X").1, (check_duplicate s2 "A").1))
      = .ok (some "A", some "P", "A", "P")) ∧
    ("B" : String) ≠ "C" ∧ ("A" : String) ≠ "P" :=
  ⟨rfl, rfl, by decide, by decide⟩

/-- The state after one record call on a fresh cache. -/
def c3s1 : S2State :=
  (update_paper_details_in_backend freshLoadedState "A" c3dataB false).toOption.getD
    initState

/-- Witness for C3: one record call on a fresh state preserves the one-hop
invariant. -/
theorem claim3_witness : one_hop c3s1.knownDuplicates :=
  claim3_one_hop_preserved freshLoadedState "A" c3dataB false c3s1 rfl
    (by intro k v h; simp [dlookup] at h)
    rfl rfl
    (by intro kv hkv; simp [freshLoadedState] at hkv)
